import Mathlib

/-!
Verification development for the codebase-graph MCP server.

Shallow embedding of the two core subsystems of the repository:

* the `CommandQueue` broker (`src/command-queue.js`), and
* the `GraphDatabase` store (`src/database.js`) together with the
  `ChangeHistory` journal / snapshot / replay engine (`src/history.js`)
  and the zod entity models (`src/models.js`).

JavaScript objects are modelled as association lists of string keys and
JSON-style values (`Obj`).  Property values occurring in this program are
at most one level deep (node properties are Neo4j scalars; `metadata` and
`details` are records of strings), so a value is a scalar, a record of
scalars, or an array of scalars.  Numbers are modelled as rationals.
The Neo4j graph is modelled as a list of nodes (each with an internal
identity `nid`, as in Neo4j) and a list of edges referencing node
identities.  Fallible operations return `Except String α` paired with the
post-state; a thrown JS exception is an `Except.error` and, matching the
source (which uses no surrounding transaction), the state mutated so far
is kept.
-/

set_option maxHeartbeats 1000000
set_option maxRecDepth 100000

namespace CG

/-- JSON/Neo4j scalar values. -/
inductive Scal where
  | vnull
  | str (s : String)
  | num (q : Rat)
  | bool (b : Bool)
deriving DecidableEq, Repr

/-- A JavaScript value as used by this program: a scalar, a record of
scalars (e.g. `metadata`, `details`), or an array of scalars
(e.g. `relatedComponentIds`). -/
inductive Val where
  | scal (v : Scal)
  | obj (o : List (String × Scal))
  | arr (a : List Scal)
deriving DecidableEq, Repr

/-- A JavaScript object / Neo4j property map: ordered keyed fields. -/
abbrev Obj := List (String × Val)

/-- Set a key in an object, JS-object style: overwrite in place if the key
exists, otherwise append at the end. -/
def objSet (o : Obj) (k : String) (v : Val) : Obj :=
  match o with
  | [] => [(k, v)]
  | (k', v') :: rest => if k' = k then (k, v) :: rest else (k', v') :: objSet rest k v

/-- `{...a, ...b}` : merge `b` into `a`, later keys overriding. -/
def objMerge (a b : Obj) : Obj :=
  b.foldl (fun acc kv => objSet acc kv.1 kv.2) a

/-- Property lookup (`o.k`); `none` models JS `undefined`. -/
def objGet (o : Obj) (k : String) : Option Val :=
  (o.find? (fun kv => kv.1 = k)).map Prod.snd

/-- Remove a key from an object. -/
def objDel (o : Obj) (k : String) : Obj :=
  match o with
  | [] => []
  | (k', v') :: rest => if k' = k then rest else (k', v') :: objDel rest k

/-- Cypher `SET n += $m` merges `m` into the node's properties; a `null`
value removes the property. -/
def setPlus (props m : Obj) : Obj :=
  m.foldl (fun acc kv =>
    if kv.2 = Val.scal .vnull then objDel acc kv.1 else objSet acc kv.1 kv.2) props

/-- JS truthiness of a property lookup result (`undefined`, `null`, `""`,
`0`, `false` and `NaN` are falsy; `NaN` does not arise here). -/
def truthy : Option Val → Bool
  | none => false
  | some (.scal .vnull) => false
  | some (.scal (.str s)) => !(s = "")
  | some (.scal (.num q)) => !(q = 0)
  | some (.scal (.bool b)) => b
  | some (.obj _) => true
  | some (.arr _) => true

/-- String form of a scalar inside a JSON document (format details are
irrelevant to the development; only non-emptiness of serialized objects is
ever consulted, mirroring the `change.beforeState ?` truthiness test). -/
def scalToJson : Scal → String
  | .vnull => "null"
  | .str s => "\"" ++ s ++ "\""
  | .num q => toString q.num ++ "/" ++ toString q.den
  | .bool b => toString b

/-- `JSON.stringify` of a one-level value. -/
def valToJson : Val → String
  | .scal v => scalToJson v
  | .obj o => "\x7b" ++ String.intercalate "," (o.map (fun kv => "\"" ++ kv.1 ++ "\":" ++ scalToJson kv.2)) ++ "\x7d"
  | .arr a => "[" ++ String.intercalate "," (a.map scalToJson) ++ "]"

/-- `JSON.stringify` of an object.  Always starts with `{`, hence never
the empty string. -/
def jsonStringify (o : Obj) : String :=
  "\x7b" ++ String.intercalate "," (o.map (fun kv => "\"" ++ kv.1 ++ "\":" ++ valToJson kv.2)) ++ "\x7d"

/-- Hex digit for a value below 16. -/
def hexChar (n : Nat) : Char :=
  if n < 10 then Char.ofNat (48 + n) else Char.ofNat (87 + (n % 16))

/-- Twelve-hex-digit rendering of a number, used for generated ids. -/
def hex12 (n : Nat) : String :=
  String.mk ((List.range 12).map (fun i => hexChar (n / 16 ^ (11 - i) % 16)))

/-- Model of `uuidv4()`: the n-th fresh id generated by a process.  The
shape is that of a version-4 UUID so generated ids pass the model
validators. -/
def freshId (n : Nat) : String :=
  "00000000-0000-4000-8000-" ++ hex12 n

/-- Hex-digit test. -/
def isHexDigit (c : Char) : Bool :=
  (48 ≤ c.toNat && c.toNat ≤ 57) || (97 ≤ c.toNat && c.toNat ≤ 102) || (65 ≤ c.toNat && c.toNat ≤ 70)

/-- Model of zod's `z.string().uuid()` check: 36 characters, dashes at
positions 8, 13, 18 and 23, hex digits elsewhere. -/
def isUuid (s : String) : Bool :=
  let cs := s.toList
  cs.length = 36 &&
    (List.range 36).all (fun i =>
      let c := cs.getD i ' '
      if i = 8 || i = 13 || i = 18 || i = 23 then c = '-' else isHexDigit c)

/-! ## Command queue (`src/command-queue.js`)

The broker state is process-local: a `Map` of pending commands keyed by
command id, a `Map` of waiting agents keyed by agent id, and a bounded
history list.  JS `Map`s preserve insertion order and `set` on an existing
key overwrites in place, which `mapSet` mirrors. -/

/-- `Map.set` semantics on an insertion-ordered association list. -/
def mapSet {β : Type} (m : List (String × β)) (k : String) (v : β) : List (String × β) :=
  match m with
  | [] => [(k, v)]
  | (k', v') :: rest => if k' = k then (k, v) :: rest else (k', v') :: mapSet rest k v

/-- `Map.delete` semantics. -/
def mapDel {β : Type} (m : List (String × β)) (k : String) : List (String × β) :=
  match m with
  | [] => []
  | (k', v') :: rest => if k' = k then rest else (k', v') :: mapDel rest k

/-- `Map.get` semantics. -/
def mapGet {β : Type} (m : List (String × β)) (k : String) : Option β :=
  (m.find? (fun kv => kv.1 = k)).map Prod.snd

/-- A broker command (after `sendCommand` fills in defaults). -/
structure Command where
  id : String
  type : String
  source : String
  priority : Option String
  targetComponentIds : Option (List String)
  taskType : Option String
  timestamp : Nat
  status : String
deriving DecidableEq, Repr

/-- Wait filters; `none` models an absent key. -/
structure Filters where
  taskTypes : Option (List String) := none
  componentIds : Option (List String) := none
  priority : Option String := none
deriving DecidableEq, Repr

/-- `Object.keys(filters).length === 0`. -/
def Filters.isEmptyObj (f : Filters) : Bool :=
  f.taskTypes.isNone && f.componentIds.isNone && f.priority.isNone

/-- `priorityLevels[p] || 1`. -/
def priorityLevel (p : String) : Nat :=
  if p = "LOW" then 1 else if p = "MEDIUM" then 2
  else if p = "HIGH" then 3 else if p = "URGENT" then 4 else 1

/-- Priority of a possibly-absent priority field. -/
def priorityLevelOpt : Option String → Nat
  | none => 1
  | some p => priorityLevel p

/-- `CommandQueue.commandMatchesFilters`, translated clause for clause. -/
def commandMatchesFilters (c : Command) (f : Filters) : Bool :=
  if f.isEmptyObj then true
  else
    (match f.taskTypes with
     | some ts =>
       if ts.length > 0 then
         match c.taskType with
         | some t => !(t = "") && ts.contains t
         | none => false
       else true
     | none => true) &&
    (match f.componentIds with
     | some ids =>
       if ids.length > 0 then
         match c.targetComponentIds with
         | some tg => tg.any (fun i => ids.contains i)
         | none => false
       else true
     | none => true) &&
    (match f.priority with
     | some fp =>
       if fp = "" then true
       else !(priorityLevelOpt c.priority < priorityLevel fp)
     | none => true)

/-- A registered waiting agent. -/
structure Waiter where
  filters : Filters
  startedAt : Nat
deriving DecidableEq, Repr

/-- Payload of a history entry. -/
inductive HistInfo where
  | cmd (c : Command)
  | err (msg : String)
  | wait (filters : Filters) (timeout : Nat)
  | sent (c : Command) (deliveredTo : String)
deriving DecidableEq, Repr

/-- One `commandHistory` entry. -/
structure HistEntry where
  timestamp : Nat
  action : String
  agentId : Option String
  info : HistInfo
deriving DecidableEq, Repr

/-- The broker's whole mutable state (`pendingCommands`, `waitingAgents`,
`commandHistory`, plus a clock and a counter backing `generateCommandId`). -/
structure QueueState where
  pendingCommands : List (String × Command) := []
  waitingAgents : List (String × Waiter) := []
  commandHistory : List HistEntry := []
  time : Nat := 0
  nextCmdId : Nat := 0
deriving DecidableEq, Repr

/-- `maxHistorySize`. -/
def maxHistorySize : Nat := 1000

/-- `CommandQueue.addToHistory`: push then trim the oldest entries beyond
the capacity. -/
def addToHistory (action : String) (agentId : Option String) (info : HistInfo)
    (s : QueueState) : QueueState :=
  let h := s.commandHistory ++ [⟨s.time, action, agentId, info⟩]
  { s with commandHistory := if h.length > maxHistorySize then h.drop (h.length - maxHistorySize) else h }

/-- `CommandQueue.findMatchingPendingCommand`: first match in `Map`
insertion order. -/
def findMatchingPendingCommand (f : Filters) (s : QueueState) : Option Command :=
  (s.pendingCommands.map Prod.snd).find? (fun c => commandMatchesFilters c f)

/-- `CommandQueue.findMatchingWaitingAgent`: first waiting agent whose
filters accept the command. -/
def findMatchingWaitingAgent (c : Command) (s : QueueState) : Option String :=
  (s.waitingAgents.find? (fun kv => commandMatchesFilters c kv.2.filters)).map Prod.fst

/-- The message used when a new wait supersedes an agent's previous wait. -/
def supersededMsg : String := "Agent started waiting for new command, canceling previous wait"

/-- The stored `reject` wrapper of a waiting agent: clear the timer, drop
the registry entry, record WAIT_FAILED. -/
def rejectWaiter (agentId : String) (msg : String) (s : QueueState) : QueueState :=
  addToHistory "WAIT_FAILED" (some agentId) (.err msg)
    { s with waitingAgents := mapDel s.waitingAgents agentId }

/-- Outcome of `waitForCommand` that the claims consult: either an
immediately delivered pending command, or a registered (suspended) wait. -/
inductive WaitOutcome where
  | received (c : Command)
  | registered
deriving DecidableEq, Repr

/-- `CommandQueue.waitForCommand` (the synchronous part: either consume a
matching pending command, or cancel any previous wait by the same agent
and register a new one). -/
def waitForCommand (agentId : String) (f : Filters) (s : QueueState)
    (timeout : Nat := 300000) : WaitOutcome × QueueState :=
  match findMatchingPendingCommand f s with
  | some c =>
    let s := { s with pendingCommands := mapDel s.pendingCommands c.id }
    (WaitOutcome.received c, addToHistory "COMMAND_RECEIVED" (some agentId) (.cmd c) s)
  | none =>
    let s :=
      if (mapGet s.waitingAgents agentId).isSome then
        rejectWaiter agentId supersededMsg s
      else s
    let s := { s with waitingAgents := mapSet s.waitingAgents agentId ⟨f, s.time⟩ }
    (WaitOutcome.registered, addToHistory "WAIT_STARTED" (some agentId) (.wait f timeout) s)

/-- Input to `sendCommand` before defaults are filled. -/
structure CmdInput where
  id : Option String := none
  type : String
  source : String := "mcp-server"
  priority : Option String := none
  targetComponentIds : Option (List String) := none
  taskType : Option String := none
deriving DecidableEq, Repr

/-- Result of `sendCommand`. -/
structure SendResult where
  delivered : Bool
  agentId : Option String
  command : Command
deriving DecidableEq, Repr

/-- The stored `resolve` wrapper of a waiting agent. -/
def resolveWaiter (agentId : String) (c : Command) (s : QueueState) : QueueState :=
  addToHistory "COMMAND_RECEIVED" (some agentId) (.cmd c)
    { s with waitingAgents := mapDel s.waitingAgents agentId }

/-- `CommandQueue.sendCommand`: deliver to the first matching waiter or
queue as PENDING. -/
def sendCommand (inp : CmdInput) (s : QueueState) : SendResult × QueueState :=
  let generated := "cmd_" ++ toString s.time ++ "_" ++ toString s.nextCmdId
  let id := match inp.id with
    | some i => if i = "" then generated else i
    | none => generated
  let s := { s with nextCmdId := if (inp.id.getD "") = "" then s.nextCmdId + 1 else s.nextCmdId }
  let full : Command :=
    ⟨id, inp.type, inp.source, inp.priority, inp.targetComponentIds, inp.taskType, s.time, "PENDING"⟩
  match findMatchingWaitingAgent full s with
  | some agentId =>
    let full := { full with status := "DELIVERED" }
    let s := resolveWaiter agentId full s
    let s := addToHistory "COMMAND_SENT" none (.sent full agentId) s
    (⟨true, some agentId, full⟩, s)
  | none =>
    let s := { s with pendingCommands := mapSet s.pendingCommands full.id full }
    let s := addToHistory "COMMAND_QUEUED" none (.cmd full) s
    (⟨false, none, full⟩, s)

/-- `CommandQueue.cancelWait`. -/
def cancelWait (agentId : String) (s : QueueState) : Bool × QueueState :=
  if (mapGet s.waitingAgents agentId).isSome then
    (true, rejectWaiter agentId "Wait cancelled by external request" s)
  else (false, s)

/-! ## Entity models (`src/models.js`)

zod schemas become `Except`-valued parsers on objects.  zod's `z.object`
strips unknown keys, `.optional()` accepts only an absent key, `.default`
substitutes on an absent key, and a type/refinement violation on any field
fails the whole parse; the parsers below sequence the field checks, so
they fail exactly when some field check fails. -/

/-- `ComponentType` enum values. -/
def ComponentType : List String :=
  ["FILE", "FUNCTION", "CLASS", "MODULE", "SYSTEM", "INTERFACE", "VARIABLE",
   "CONSTANT", "REQUIREMENT", "SPECIFICATION", "FEATURE", "USER_STORY",
   "ACCEPTANCE_CRITERIA", "TEST_CASE"]

/-- `RelationshipType` enum values.  `HAS_COMMENT` and `RELATES_TO` are
deliberately not members. -/
def RelationshipType : List String :=
  ["DEPENDS_ON", "IMPLEMENTS", "EXTENDS", "CONTAINS", "CALLS", "IMPORTS",
   "EXPORTS", "OVERRIDES", "USES", "CREATES", "SATISFIES", "DERIVES_FROM",
   "REFINES", "TRACES_TO", "VALIDATES", "VERIFIES", "CONFLICTS_WITH",
   "SUPPORTS", "ALLOCATES_TO", "REALIZES", "PRECEDES", "FOLLOWS", "CONCURRENT"]

/-- `TaskStatus` enum values. -/
def TaskStatus : List String :=
  ["TODO", "IN_PROGRESS", "DONE", "BLOCKED", "CANCELLED"]

/-- `z.string()` on a required field. -/
def fieldStr (o : Obj) (k : String) : Except String String :=
  match objGet o k with
  | some (.scal (.str s)) => .ok s
  | _ => .error ("expected string: " ++ k)

/-- `z.string().uuid()` on a required field. -/
def fieldUuid (o : Obj) (k : String) : Except String String := do
  let s ← fieldStr o k
  if isUuid s then pure s else .error ("invalid uuid: " ++ k)

/-- `z.string().min(1)` on a required field. -/
def fieldMinStr (o : Obj) (k : String) : Except String String := do
  let s ← fieldStr o k
  if s.length ≥ 1 then pure s else .error ("too short: " ++ k)

/-- `z.nativeEnum(E)` on a required field. -/
def fieldEnum (o : Obj) (k : String) (e : List String) : Except String String := do
  let s ← fieldStr o k
  if e.contains s then pure s else .error ("invalid enum value: " ++ k)

/-- `z.string().optional()`. -/
def fieldStrOpt (o : Obj) (k : String) : Except String (Option String) :=
  match objGet o k with
  | none => .ok none
  | some (.scal (.str s)) => .ok (some s)
  | _ => .error ("expected string: " ++ k)

/-- `z.record(z.string()).default({})`. -/
def fieldRecordStrD (o : Obj) (k : String) : Except String (List (String × String)) :=
  match objGet o k with
  | none => .ok []
  | some (.obj m) =>
    if m.all (fun kv => match kv.2 with | .str _ => true | _ => false) then
      .ok (m.filterMap (fun kv => match kv.2 with | .str s => some (kv.1, s) | _ => none))
    else .error ("expected record of strings: " ++ k)
  | _ => .error ("expected record of strings: " ++ k)

/-- `z.number().min(lo).max(hi).default(d)`. -/
def fieldNumRangeD (o : Obj) (k : String) (lo hi d : Rat) : Except String Rat :=
  match objGet o k with
  | none => .ok d
  | some (.scal (.num q)) =>
    if lo ≤ q ∧ q ≤ hi then .ok q else .error ("out of range: " ++ k)
  | _ => .error ("expected number: " ++ k)

/-- `z.number().int().min(1).optional()`. -/
def fieldIntMin1Opt (o : Obj) (k : String) : Except String (Option Rat) :=
  match objGet o k with
  | none => .ok none
  | some (.scal (.num q)) =>
    if q.den = 1 ∧ 1 ≤ q then .ok (some q) else .error ("invalid: " ++ k)
  | _ => .error ("expected number: " ++ k)

/-- `z.number().min(0).max(100).optional()`. -/
def fieldNum0To100Opt (o : Obj) (k : String) : Except String (Option Rat) :=
  match objGet o k with
  | none => .ok none
  | some (.scal (.num q)) =>
    if 0 ≤ q ∧ q ≤ 100 then .ok (some q) else .error ("out of range: " ++ k)
  | _ => .error ("expected number: " ++ k)

/-- `z.array(z.string().uuid()).default([])`. -/
def fieldArrUuidD (o : Obj) (k : String) : Except String (List String) :=
  match objGet o k with
  | none => .ok []
  | some (.arr a) =>
    if a.all (fun v => match v with | .str s => isUuid s | _ => false) then
      .ok (a.filterMap (fun v => match v with | .str s => some s | _ => none))
    else .error ("expected array of uuids: " ++ k)
  | _ => .error ("expected array: " ++ k)

/-- Validated `Component` (class `Component` of `models.js`). -/
structure Component where
  id : String
  type : String
  name : String
  description : Option String
  path : Option String
  codebase : Option String
  metadata : List (String × String)
deriving DecidableEq, Repr

/-- `ComponentSchema.parse` (the `Component` constructor). -/
def parseComponent (o : Obj) : Except String Component := do
  let id ← fieldUuid o "id"
  let ty ← fieldEnum o "type" ComponentType
  let name ← fieldMinStr o "name"
  let description ← fieldStrOpt o "description"
  let path ← fieldStrOpt o "path"
  let codebase ← fieldStrOpt o "codebase"
  let metadata ← fieldRecordStrD o "metadata"
  pure ⟨id, ty, name, description, path, codebase, metadata⟩

/-- `Component.toNode().properties`: the six standard fields with the
metadata spread on top (later keys override). -/
def Component.toNodeProps (c : Component) : Obj :=
  objMerge
    [("id", .scal (.str c.id)), ("type", .scal (.str c.type)),
     ("name", .scal (.str c.name)),
     ("description", .scal (.str (c.description.getD ""))),
     ("path", .scal (.str (c.path.getD ""))),
     ("codebase", .scal (.str (c.codebase.getD "")))]
    (c.metadata.map (fun kv => (kv.1, Val.scal (.str kv.2))))

/-- Validated `Task` (class `Task` of `models.js`). -/
structure Task where
  id : String
  name : String
  description : Option String
  status : String
  progress : Rat
  codebase : Option String
  relatedComponentIds : List String
  metadata : List (String × String)
deriving DecidableEq, Repr

/-- `TaskSchema.parse` (the `Task` constructor). -/
def parseTask (o : Obj) : Except String Task := do
  let id ← fieldUuid o "id"
  let name ← fieldMinStr o "name"
  let description ← fieldStrOpt o "description"
  let status ← fieldEnum o "status" TaskStatus
  let progress ← fieldNumRangeD o "progress" 0 1 0
  let codebase ← fieldStrOpt o "codebase"
  let related ← fieldArrUuidD o "relatedComponentIds"
  let metadata ← fieldRecordStrD o "metadata"
  pure ⟨id, name, description, status, progress, codebase, related, metadata⟩

/-- `Task.toNode().properties`.  Note `relatedComponentIds` is not stored
on the node. -/
def Task.toNodeProps (t : Task) : Obj :=
  objMerge
    [("id", .scal (.str t.id)), ("name", .scal (.str t.name)),
     ("description", .scal (.str (t.description.getD ""))),
     ("status", .scal (.str t.status)),
     ("progress", .scal (.num t.progress)),
     ("codebase", .scal (.str (t.codebase.getD "")))]
    (t.metadata.map (fun kv => (kv.1, Val.scal (.str kv.2))))

/-- Validated `Relationship` (class `Relationship` of `models.js`). -/
structure Relationship where
  id : String
  type : String
  sourceId : String
  targetId : String
  details : List (String × String)
  timeOrder : Option Rat
  probability : Option Rat
  reasoning : Option String
deriving DecidableEq, Repr

/-- `RelationshipSchema.parse` (the `Relationship` constructor). -/
def parseRelationship (o : Obj) : Except String Relationship := do
  let id ← fieldUuid o "id"
  let ty ← fieldEnum o "type" RelationshipType
  let sourceId ← fieldUuid o "sourceId"
  let targetId ← fieldUuid o "targetId"
  let details ← fieldRecordStrD o "details"
  let timeOrder ← fieldIntMin1Opt o "timeOrder"
  let probability ← fieldNum0To100Opt o "probability"
  let reasoning ← fieldStrOpt o "reasoning"
  pure ⟨id, ty, sourceId, targetId, details, timeOrder, probability, reasoning⟩

/-- `Relationship.toRelation().properties`: id plus details, with the
temporal fields added only when present. -/
def Relationship.toRelationProps (r : Relationship) : Obj :=
  let p := objMerge [("id", .scal (.str r.id))]
    (r.details.map (fun kv => (kv.1, Val.scal (.str kv.2))))
  let p := match r.timeOrder with
    | some t => objSet p "timeOrder" (.scal (.num t))
    | none => p
  let p := match r.probability with
    | some q => objSet p "probability" (.scal (.num q))
    | none => p
  match r.reasoning with
  | some s => objSet p "reasoning" (.scal (.str s))
  | none => p

/-! ## Graph state (`src/database.js` / `src/history.js` data)

Neo4j nodes get an internal identity `nid`; edges reference node
identities, so `DETACH DELETE` removes exactly the edges incident to the
deleted nodes.  The five node kinds this program creates are disjoint
label sets (`Component`+kind, `Task`, `Comment`, `ChangeEvent`,
`Snapshot`), modelled as constructors.  The secondary kind label on
component nodes is never queried by the code and is not represented.
Timestamps (`new Date().toISOString()`) are modelled as a monotone `Nat`
clock; ISO-8601 string comparison agrees with the numeric order. -/

/-- A `:ChangeEvent` node, as written by `ChangeHistory.recordChange`.
`beforeStateS`/`afterStateS` hold the content of the JSON-stringified
before/after objects (`JSON.stringify(beforeState || {})`); the stored
string itself is `jsonStringify` of that content. -/
structure ChangeEvent where
  id : String
  operation : String
  entityType : String
  entityId : String
  beforeStateS : Obj
  afterStateS : Obj
  timestamp : Nat
  sessionId : String
  userId : String
  source : String
  extra : Obj
deriving DecidableEq, Repr

/-- The parsed `snapshot.data` payload captured by `createSnapshot`. -/
structure SnapCapture where
  components : List Obj
  tasks : List Obj
  relationships : List Obj
deriving DecidableEq, Repr

/-- A `:Snapshot` node.  The `data` property is stored as a JSON string;
its content is carried structurally (`JSON.parse ∘ JSON.stringify` is the
identity on it). -/
structure SnapshotRec where
  id : String
  name : String
  timestamp : Nat
  extra : Obj
  data : SnapCapture
deriving DecidableEq, Repr

/-- The five node kinds created by the program. -/
inductive NodeEnt where
  | comp (props : Obj)
  | task (props : Obj)
  | comment (props : Obj)
  | event (ev : ChangeEvent)
  | snap (sn : SnapshotRec)
deriving DecidableEq, Repr

/-- Property map of a `ChangeEvent` node (`SET c = $changeEvent`; the
metadata spread comes last and may override). -/
def ChangeEvent.propsObj (e : ChangeEvent) : Obj :=
  objMerge
    [("id", .scal (.str e.id)), ("operation", .scal (.str e.operation)),
     ("entityType", .scal (.str e.entityType)),
     ("entityId", .scal (.str e.entityId)),
     ("beforeState", .scal (.str (jsonStringify e.beforeStateS))),
     ("afterState", .scal (.str (jsonStringify e.afterStateS))),
     ("timestamp", .scal (.num e.timestamp)),
     ("sessionId", .scal (.str e.sessionId)),
     ("userId", .scal (.str e.userId)),
     ("source", .scal (.str e.source))]
    e.extra

/-- Property map of a `Snapshot` node (the serialized `data` string is
carried structurally in `SnapshotRec.data` and omitted here; no claim
reads it through the generic property map). -/
def SnapshotRec.propsObj (s : SnapshotRec) : Obj :=
  objMerge
    [("id", .scal (.str s.id)), ("name", .scal (.str s.name)),
     ("timestamp", .scal (.num s.timestamp))]
    s.extra

/-- Generic property map of a node (for `MATCH (n) WHERE n.id = ...`). -/
def NodeEnt.propsObj : NodeEnt → Obj
  | .comp p => p
  | .task p => p
  | .comment p => p
  | .event e => e.propsObj
  | .snap s => s.propsObj

def NodeEnt.isComp : NodeEnt → Bool
  | .comp _ => true
  | _ => false

def NodeEnt.isEvent : NodeEnt → Bool
  | .event _ => true
  | _ => false

def NodeEnt.isSnap : NodeEnt → Bool
  | .snap _ => true
  | _ => false

/-- `n.id = $i` for a string parameter. -/
def nodeIdIs (n : NodeEnt) (i : String) : Bool :=
  objGet n.propsObj "id" = some (.scal (.str i))

/-- `MATCH (c:Component {id: $i})`. -/
def isCompWithId (n : NodeEnt) (i : String) : Bool :=
  match n with
  | .comp p => objGet p "id" = some (.scal (.str i))
  | _ => false

/-- `MATCH (t:Task {id: $i})`. -/
def isTaskWithId (n : NodeEnt) (i : String) : Bool :=
  match n with
  | .task p => objGet p "id" = some (.scal (.str i))
  | _ => false

/-- `MATCH (c:Comment {id: $i})`. -/
def isCommentWithId (n : NodeEnt) (i : String) : Bool :=
  match n with
  | .comment p => objGet p "id" = some (.scal (.str i))
  | _ => false

/-- A stored node with its Neo4j-internal identity. -/
structure DbNode where
  nid : Nat
  ent : NodeEnt
deriving DecidableEq, Repr

/-- A stored relationship. -/
structure Edge where
  eid : Nat
  relType : String
  src : Nat
  tgt : Nat
  props : Obj
deriving DecidableEq, Repr

/-- The whole backend state, plus the process clock and the id-generator
counter backing `uuidv4()`. -/
structure GraphState where
  nodes : List DbNode := []
  edges : List Edge := []
  nextNid : Nat := 0
  nextEid : Nat := 0
  nextUuid : Nat := 0
  time : Nat := 0
deriving DecidableEq, Repr

def findComp (g : GraphState) (i : String) : Option DbNode :=
  g.nodes.find? (fun d => isCompWithId d.ent i)

def findNid (g : GraphState) (n : Nat) : Option DbNode :=
  g.nodes.find? (fun d => d.nid = n)

/-- `CREATE (n ...)`: append a node with a fresh internal identity. -/
def addNode (g : GraphState) (e : NodeEnt) : Nat × GraphState :=
  (g.nextNid,
   { g with nodes := g.nodes ++ [⟨g.nextNid, e⟩], nextNid := g.nextNid + 1 })

/-- `CREATE (a)-[r:TY ...]->(b)`. -/
def addEdge (g : GraphState) (ty : String) (src tgt : Nat) (props : Obj) : GraphState :=
  { g with edges := g.edges ++ [⟨g.nextEid, ty, src, tgt, props⟩],
           nextEid := g.nextEid + 1 }

/-- `MATCH (n) WHERE p(n) DETACH DELETE n`: remove the matched nodes and
every edge incident to one of them. -/
def removeNodesWhere (g : GraphState) (p : NodeEnt → Bool) : GraphState :=
  let removed := g.nodes.filter (fun d => p d.ent)
  { g with nodes := g.nodes.filter (fun d => !(p d.ent)),
           edges := g.edges.filter
             (fun e => !(removed.any (fun d => d.nid = e.src || d.nid = e.tgt))) }

/-- The id property read back off a stored entity
(`createdComponent.id`); property maps written by the code always hold a
string there. -/
def propIdStr (p : Obj) : String :=
  match objGet p "id" with
  | some (.scal (.str s)) => s
  | _ => ""

/-! ## Change journal append (`ChangeHistory.recordChange`) and the
`GraphDatabase` operations (`src/database.js`).

Each operation returns `Except String result × GraphState`; a thrown JS
exception is `Except.error`, and — matching the source, which runs each
statement in its own auto-commit session — the state already mutated is
kept on error.  The id generator (`uuidv4`) and the clock advance even
when an operation later fails, as in the source process. -/

/-- `ChangeHistory.recordChange`: build the change event (stringifying
`beforeState || {}` and `afterState || {}`), then `CREATE (c:ChangeEvent)
SET c = $changeEvent`. -/
def recordChange (operation entityType entityId : String)
    (beforeState afterState : Option Obj) (metadata : Obj) (g : GraphState) :
    ChangeEvent × GraphState :=
  let str3 := fun (k d : String) =>
    match objGet metadata k with
    | some (.scal (.str s)) => if s = "" then d else s
    | _ => d
  let ev : ChangeEvent :=
    { id := freshId g.nextUuid
      operation := operation
      entityType := entityType
      entityId := entityId
      beforeStateS := beforeState.getD []
      afterStateS := afterState.getD []
      timestamp := g.time
      sessionId := str3 "sessionId" "anonymous"
      userId := str3 "userId" "system"
      source := str3 "source" "mcp-server"
      extra := metadata }
  let g := { g with nextUuid := g.nextUuid + 1, time := g.time + 1 }
  (ev, (addNode g (.event ev)).2)

/-- `GraphDatabase.createComponent`: validate
`{ ...componentData, id: componentData.id || uuidv4() }`, `CREATE` the
node (unique constraint on `Component.id`), then record
`CREATE_COMPONENT` history with `beforeState = null`. -/
def createComponent (componentData : Obj) (metadata : Obj) (g : GraphState) :
    Except String Obj × GraphState :=
  let (idVal, g) :=
    if truthy (objGet componentData "id") then
      ((objGet componentData "id").getD (.scal .vnull), g)
    else
      (Val.scal (.str (freshId g.nextUuid)), { g with nextUuid := g.nextUuid + 1 })
  match parseComponent (objMerge componentData [("id", idVal)]) with
  | .error e => (.error e, g)
  | .ok c =>
    if g.nodes.any (fun d => isCompWithId d.ent c.id) then
      (.error "unique constraint violated: Component.id", g)
    else
      let props := c.toNodeProps
      let (_, g) := addNode g (.comp props)
      let (_, g) := recordChange "CREATE_COMPONENT" "COMPONENT" (propIdStr props)
        none (some props) metadata g
      (.ok props, g)

/-- `GraphDatabase.updateComponent`:
`MATCH (c:Component {id: $id}) SET c += $updates RETURN c`; returns the
new properties, or `null` when no component matches.  Records nothing in
the journal. -/
def updateComponent (id : String) (updates : Obj) (g : GraphState) :
    Except String (Option Obj) × GraphState :=
  match g.nodes.find? (fun d => isCompWithId d.ent id) with
  | none => (.ok none, g)
  | some d =>
    let g :=
      { g with nodes := g.nodes.map (fun n =>
          match n.ent with
          | .comp p =>
            if isCompWithId n.ent id then ⟨n.nid, .comp (setPlus p updates)⟩ else n
          | _ => n) }
    (.ok (some (setPlus d.ent.propsObj updates)), g)

/-- `GraphDatabase.deleteComponent`:
`MATCH (c:Component {id: $id}) DETACH DELETE c`; always returns `true`.
Records nothing in the journal. -/
def deleteComponent (id : String) (g : GraphState) :
    Except String Bool × GraphState :=
  (.ok true, removeNodesWhere g (fun n => isCompWithId n id))

/-- `GraphDatabase.createRelationship`: validate
`{ ...relationshipData, id: relationshipData.id || uuidv4() }`, then
match both endpoints as `:Component` nodes and `CREATE` the typed edge;
zero rows (a missing endpoint) yields `null` and creates nothing. -/
def createRelationship (relationshipData : Obj) (g : GraphState) :
    Except String (Option Obj) × GraphState :=
  let (idVal, g) :=
    if truthy (objGet relationshipData "id") then
      ((objGet relationshipData "id").getD (.scal .vnull), g)
    else
      (Val.scal (.str (freshId g.nextUuid)), { g with nextUuid := g.nextUuid + 1 })
  match parseRelationship (objMerge relationshipData [("id", idVal)]) with
  | .error e => (.error e, g)
  | .ok r =>
    match findComp g r.sourceId, findComp g r.targetId with
    | some sN, some tN =>
      let props := r.toRelationProps
      let g := addEdge g r.type sN.nid tN.nid props
      let ret := objMerge props
        [("sourceName", (objGet sN.ent.propsObj "name").getD (.scal .vnull)),
         ("targetName", (objGet tN.ent.propsObj "name").getD (.scal .vnull))]
      (.ok (some ret), g)
    | _, _ => (.ok none, g)

/-- The rows matched by the `getComponentRelationships` queries: the edge,
the neighbor node, and the direction tag.  All three query shapes bind
both endpoints with the `:Component` label; `direction = both` is a
Cypher `UNION` (distinct rows). -/
def getComponentRelationshipsRows (g : GraphState) (componentId : String)
    (direction : String) : List (Edge × DbNode × String) :=
  let outRows := g.edges.filterMap (fun e =>
    match findNid g e.src, findNid g e.tgt with
    | some s, some t =>
      if isCompWithId s.ent componentId && t.ent.isComp then
        some (e, t, "outgoing")
      else none
    | _, _ => none)
  let inRows := g.edges.filterMap (fun e =>
    match findNid g e.src, findNid g e.tgt with
    | some s, some t =>
      if isCompWithId t.ent componentId && s.ent.isComp then
        some (e, s, "incoming")
      else none
    | _, _ => none)
  if direction = "outgoing" then outRows
  else if direction = "incoming" then inRows
  else (outRows ++ inRows).dedup

/-- One element of the `GraphDatabase.getComponentRelationships` result:
`{relationship: r.properties, target: target.properties, direction}`. -/
structure RelRow where
  relationship : Obj
  target : Obj
  direction : String
deriving DecidableEq, Repr

/-- `GraphDatabase.getComponentRelationships`. -/
def getComponentRelationships (g : GraphState) (componentId : String)
    (direction : String := "both") : List RelRow :=
  (getComponentRelationshipsRows g componentId direction).map
    (fun r => ⟨r.1.props, r.2.1.ent.propsObj, r.2.2⟩)

/-- `GraphDatabase.createTask`: validate
`{ ...taskData, id: taskData.id || uuidv4() }`, `CREATE (t:Task)` (unique
constraint on `Task.id`), then link `RELATES_TO` edges to every matched
related component.  Records nothing in the journal. -/
def createTask (taskData : Obj) (g : GraphState) :
    Except String (Option Obj) × GraphState :=
  let (idVal, g) :=
    if truthy (objGet taskData "id") then
      ((objGet taskData "id").getD (.scal .vnull), g)
    else
      (Val.scal (.str (freshId g.nextUuid)), { g with nextUuid := g.nextUuid + 1 })
  match parseTask (objMerge taskData [("id", idVal)]) with
  | .error e => (.error e, g)
  | .ok t =>
    if g.nodes.any (fun d => isTaskWithId d.ent t.id) then
      (.error "unique constraint violated: Task.id", g)
    else
      let props := t.toNodeProps
      let (_, g) := addNode g (.task props)
      let g :=
        if t.relatedComponentIds.length > 0 then
          -- MATCH (t:Task {id}) MATCH (c:Component) WHERE c.id IN $ids
          -- CREATE (t)-[:RELATES_TO]->(c)   (one row per task × component)
          let tasks := g.nodes.filter (fun d => isTaskWithId d.ent t.id)
          let comps := g.nodes.filter (fun d =>
            d.ent.isComp && t.relatedComponentIds.any (fun i => nodeIdIs d.ent i))
          tasks.foldl (fun acc tn =>
            comps.foldl (fun acc2 cn => addEdge acc2 "RELATES_TO" tn.nid cn.nid []) acc) g
        else g
      (.ok (some props), g)

/-- `GraphDatabase.updateTaskStatus`: build `{status}` plus `progress`
when the argument is not `null`, then
`MATCH (t:Task {id: $id}) SET t += $updates RETURN t`.  No validation is
performed and nothing is journaled. -/
def updateTaskStatus (id : String) (status : Val) (progress : Option Val)
    (g : GraphState) : Except String (Option Obj) × GraphState :=
  let updates :=
    match progress with
    | some p => if p = .scal .vnull then [("status", status)] else objSet [("status", status)] "progress" p
    | none => [("status", status)]
  match g.nodes.find? (fun d => isTaskWithId d.ent id) with
  | none => (.ok none, g)
  | some d =>
    let g :=
      { g with nodes := g.nodes.map (fun n =>
          match n.ent with
          | .task p =>
            if isTaskWithId n.ent id then ⟨n.nid, .task (setPlus p updates)⟩ else n
          | _ => n) }
    (.ok (some (setPlus d.ent.propsObj updates)), g)

/-- `GraphDatabase.createComment`: generate the comment id and timestamp,
require some node with `n.id = $nodeId` to exist (any label), `CREATE`
the `:Comment` node, then create one `HAS_COMMENT` edge from every node
matching `n.id = $nodeId` to every `:Comment` node with the new id. -/
def createComment (commentData : Obj) (g : GraphState) :
    Except String Obj × GraphState :=
  let commentId := freshId g.nextUuid
  let now := g.time
  let g := { g with nextUuid := g.nextUuid + 1, time := g.time + 1 }
  let nodeMatches := fun (gs : GraphState) =>
    match objGet commentData "nodeId" with
    | some (.scal (.str s)) => gs.nodes.filter (fun (d : DbNode) => nodeIdIs d.ent s)
    | _ => ([] : List DbNode)
  if (nodeMatches g).length = 0 then
    (.error "Node not found", g)
  else
    let props : Obj :=
      [("id", .scal (.str commentId)),
       ("content", (objGet commentData "content").getD (.scal .vnull)),
       ("author",
        match objGet commentData "author" with
        | some (.scal (.str s)) => if s = "" then .scal (.str "system") else .scal (.str s)
        | _ => .scal (.str "system")),
       ("created", .scal (.num now))]
    let (_, g) := addNode g (.comment props)
    let targets := g.nodes.filter (fun d => isCommentWithId d.ent commentId)
    let g := (nodeMatches g).foldl (fun acc n =>
      targets.foldl (fun acc2 c => addEdge acc2 "HAS_COMMENT" n.nid c.nid []) acc) g
    (.ok (objMerge props [("nodeId", (objGet commentData "nodeId").getD (.scal .vnull))]), g)

/-- `GraphDatabase.updateComment`: set `{content, updated}` on the
matched `:Comment` node; `null` when absent. -/
def updateComment (commentId : String) (updates : Obj) (g : GraphState) :
    Except String (Option Obj) × GraphState :=
  let updateData : Obj :=
    [("content", (objGet updates "content").getD (.scal .vnull)),
     ("updated", .scal (.num g.time))]
  let g := { g with time := g.time + 1 }
  match g.nodes.find? (fun d => isCommentWithId d.ent commentId) with
  | none => (.ok none, g)
  | some d =>
    let g :=
      { g with nodes := g.nodes.map (fun n =>
          match n.ent with
          | .comment p =>
            if isCommentWithId n.ent commentId then ⟨n.nid, .comment (setPlus p updateData)⟩ else n
          | _ => n) }
    (.ok (some (setPlus d.ent.propsObj updateData)), g)

/-- `GraphDatabase.deleteComment`: `DETACH DELETE` the matched comment;
always `true`. -/
def deleteComment (commentId : String) (g : GraphState) :
    Except String Bool × GraphState :=
  (.ok true, removeNodesWhere g (fun n => isCommentWithId n commentId))

/-! ### Bulk operations

Each bulk runs in one transaction: on any failure the transaction rolls
back (the graph returns to its pre-bulk contents; generated ids and the
clock are process-local and stay advanced).  `createComponents` records
one `CREATE_COMPONENT_BULK` journal entry per created component after the
commit; the relationship and task bulks record nothing. -/

/-- The transactional body of `createComponents`: create each component
node in turn. -/
def createComponentsTx (componentsData : List Obj) (acc : List Obj)
    (g : GraphState) : Except String (List Obj) × GraphState :=
  match componentsData with
  | [] => (.ok acc, g)
  | cd :: rest =>
    let (idVal, g) :=
      if truthy (objGet cd "id") then ((objGet cd "id").getD (.scal .vnull), g)
      else (Val.scal (.str (freshId g.nextUuid)), { g with nextUuid := g.nextUuid + 1 })
    match parseComponent (objMerge cd [("id", idVal)]) with
    | .error e => (.error e, g)
    | .ok c =>
      if g.nodes.any (fun d => isCompWithId d.ent c.id) then
        (.error "unique constraint violated: Component.id", g)
      else
        let props := c.toNodeProps
        let (_, g) := addNode g (.comp props)
        createComponentsTx rest (acc ++ [props]) g

/-- `GraphDatabase.createComponents` (bulk). -/
def createComponents (componentsData : List Obj) (metadata : Obj)
    (g : GraphState) : Except String (List Obj) × GraphState :=
  match createComponentsTx componentsData [] g with
  | (.error e, g') =>
    -- tx.rollback(): restore the pre-bulk graph contents
    (.error e, { g' with nodes := g.nodes, edges := g.edges })
  | (.ok created, g') =>
    let g' := created.foldl (fun acc props =>
      (recordChange "CREATE_COMPONENT_BULK" "COMPONENT" (propIdStr props)
        none (some props)
        (objMerge metadata
          [("bulkOperation", .scal (.bool true)),
           ("totalCount", .scal (.num created.length))]) acc).2) g'
    (.ok created, g')

/-- The transactional body of `createRelationships`. -/
def createRelationshipsTx (relationshipsData : List Obj) (acc : List Obj)
    (g : GraphState) : Except String (List Obj) × GraphState :=
  match relationshipsData with
  | [] => (.ok acc, g)
  | rd :: rest =>
    let (idVal, g) :=
      if truthy (objGet rd "id") then ((objGet rd "id").getD (.scal .vnull), g)
      else (Val.scal (.str (freshId g.nextUuid)), { g with nextUuid := g.nextUuid + 1 })
    match parseRelationship (objMerge rd [("id", idVal)]) with
    | .error e => (.error e, g)
    | .ok r =>
      match findComp g r.sourceId, findComp g r.targetId with
      | some sN, some tN =>
        let props := r.toRelationProps
        let g := addEdge g r.type sN.nid tN.nid props
        let ret := objMerge props
          [("sourceName", (objGet sN.ent.propsObj "name").getD (.scal .vnull)),
           ("targetName", (objGet tN.ent.propsObj "name").getD (.scal .vnull))]
        createRelationshipsTx rest (acc ++ [ret]) g
      | _, _ => createRelationshipsTx rest acc g

/-- `GraphDatabase.createRelationships` (bulk); no journal entries. -/
def createRelationships (relationshipsData : List Obj) (g : GraphState) :
    Except String (List Obj) × GraphState :=
  match createRelationshipsTx relationshipsData [] g with
  | (.error e, g') => (.error e, { g' with nodes := g.nodes, edges := g.edges })
  | (.ok created, g') => (.ok created, g')

/-- The transactional body of `createTasks`. -/
def createTasksTx (tasksData : List Obj) (acc : List Obj) (g : GraphState) :
    Except String (List Obj) × GraphState :=
  match tasksData with
  | [] => (.ok acc, g)
  | td :: rest =>
    let (idVal, g) :=
      if truthy (objGet td "id") then ((objGet td "id").getD (.scal .vnull), g)
      else (Val.scal (.str (freshId g.nextUuid)), { g with nextUuid := g.nextUuid + 1 })
    match parseTask (objMerge td [("id", idVal)]) with
    | .error e => (.error e, g)
    | .ok t =>
      if g.nodes.any (fun d => isTaskWithId d.ent t.id) then
        (.error "unique constraint violated: Task.id", g)
      else
        let props := t.toNodeProps
        let (_, g) := addNode g (.task props)
        let g :=
          if t.relatedComponentIds.length > 0 then
            let tasks := g.nodes.filter (fun d => isTaskWithId d.ent t.id)
            let comps := g.nodes.filter (fun d =>
              d.ent.isComp && t.relatedComponentIds.any (fun i => nodeIdIs d.ent i))
            tasks.foldl (fun acc3 tn =>
              comps.foldl (fun acc2 cn => addEdge acc2 "RELATES_TO" tn.nid cn.nid []) acc3) g
          else g
        createTasksTx rest (acc ++ [props]) g

/-- `GraphDatabase.createTasks` (bulk); no journal entries. -/
def createTasks (tasksData : List Obj) (g : GraphState) :
    Except String (List Obj) × GraphState :=
  match createTasksTx tasksData [] g with
  | (.error e, g') => (.error e, { g' with nodes := g.nodes, edges := g.edges })
  | (.ok created, g') => (.ok created, g')

/-! ## Journal reads, replay, snapshot, restore (`src/history.js`). -/

/-- All `:ChangeEvent` nodes, in storage order. -/
def changeEventsOf (g : GraphState) : List ChangeEvent :=
  g.nodes.filterMap (fun d =>
    match d.ent with
    | .event e => some e
    | _ => none)

/-- Stable insertion into an ascending-by-timestamp list. -/
def insertAscByTs (e : ChangeEvent) : List ChangeEvent → List ChangeEvent
  | [] => [e]
  | x :: xs =>
    if e.timestamp ≤ x.timestamp then e :: x :: xs else x :: insertAscByTs e xs

/-- `ORDER BY c.timestamp ASC` (stable). -/
def sortAscByTs (l : List ChangeEvent) : List ChangeEvent :=
  l.foldr insertAscByTs []

/-- Stable insertion into a descending-by-timestamp list. -/
def insertDescByTs (e : ChangeEvent) : List ChangeEvent → List ChangeEvent
  | [] => [e]
  | x :: xs =>
    if x.timestamp ≤ e.timestamp then e :: x :: xs else x :: insertDescByTs e xs

/-- `ORDER BY c.timestamp DESC` (stable). -/
def sortDescByTs (l : List ChangeEvent) : List ChangeEvent :=
  l.foldr insertDescByTs []

/-- A journal entry as the readers return it: the stored fields with
`beforeState`/`afterState` decoded —
`change.beforeState ? JSON.parse(change.beforeState) : null`.  The stored
string is `jsonStringify` of the structural content, and the truthiness
test is its non-emptiness. -/
structure ReadChange where
  id : String
  operation : String
  entityType : String
  entityId : String
  beforeState : Option Obj
  afterState : Option Obj
  timestamp : Nat
  sessionId : String
  userId : String
  source : String
  extra : Obj
deriving DecidableEq, Repr

/-- Decode one stored change event. -/
def readBack (e : ChangeEvent) : ReadChange :=
  { id := e.id, operation := e.operation, entityType := e.entityType
    entityId := e.entityId
    beforeState := if jsonStringify e.beforeStateS = "" then none else some e.beforeStateS
    afterState := if jsonStringify e.afterStateS = "" then none else some e.afterStateS
    timestamp := e.timestamp, sessionId := e.sessionId, userId := e.userId
    source := e.source, extra := e.extra }

/-- `ChangeHistory.getEntityHistory`: newest first, limited. -/
def getEntityHistory (entityId : String) (lim : Nat) (g : GraphState) :
    List ReadChange :=
  ((sortDescByTs ((changeEventsOf g).filter (fun e => e.entityId = entityId))).take lim).map readBack

/-- `ChangeHistory.getRecentChanges`: newest first, optional operation
filter, limited. -/
def getRecentChanges (lim : Nat) (operation : Option String) (g : GraphState) :
    List ReadChange :=
  let evs := match operation with
    | some op => (changeEventsOf g).filter (fun e => e.operation = op)
    | none => changeEventsOf g
  ((sortDescByTs evs).take lim).map readBack

/-- `ChangeHistory.getChangesByTimeRange`: inclusive bounds, ascending,
`LIMIT $limit` (default 1000). -/
def getChangesByTimeRange (startTime endTime : Nat) (lim : Nat) (g : GraphState) :
    List ReadChange :=
  ((sortAscByTs ((changeEventsOf g).filter
    (fun e => startTime ≤ e.timestamp && e.timestamp ≤ endTime))).take lim).map readBack

/-- `ChangeHistory.replayChange`: dispatch one decoded journal entry to
the store; unknown operations only log a warning. -/
def replayChange (c : ReadChange) (g : GraphState) :
    Except String Unit × GraphState :=
  if c.operation = "CREATE_COMPONENT" then
    let (r, g) := createComponent (c.afterState.getD []) [] g
    (r.map (fun _ => ()), g)
  else if c.operation = "UPDATE_COMPONENT" then
    let (r, g) := updateComponent c.entityId (c.afterState.getD []) g
    (r.map (fun _ => ()), g)
  else if c.operation = "DELETE_COMPONENT" then
    let (r, g) := deleteComponent c.entityId g
    (r.map (fun _ => ()), g)
  else if c.operation = "CREATE_TASK" then
    let (r, g) := createTask (c.afterState.getD []) g
    (r.map (fun _ => ()), g)
  else if c.operation = "UPDATE_TASK" then
    let afterS := c.afterState.getD []
    let (r, g) := updateTaskStatus c.entityId
      ((objGet afterS "status").getD (.scal .vnull)) (objGet afterS "progress") g
    (r.map (fun _ => ()), g)
  else if c.operation = "CREATE_RELATIONSHIP" then
    let (r, g) := createRelationship (c.afterState.getD []) g
    (r.map (fun _ => ()), g)
  else
    (.ok (), g)

/-- Projection of a planned entry in a dry-run replay report. -/
structure OpSummary where
  timestamp : Nat
  operation : String
  entityType : String
  entityId : String
deriving DecidableEq, Repr

/-- Result of `replayToTimestamp`. -/
inductive ReplayOutcome where
  | planned (changes : List OpSummary)
  | applied (replayedChanges : Nat)
deriving DecidableEq, Repr

/-- `ChangeHistory.replayToTimestamp`: fetch every journal entry in
`['1970-01-01', target]` (ascending, LIMIT 1000); dry run reports the
planned list; otherwise clear every node that is not a `:ChangeEvent`
(`MATCH (n) WHERE NOT n:ChangeEvent DETACH DELETE n`) and replay each
fetched entry in order, swallowing individual failures. -/
def replayToTimestamp (targetTimestamp : Nat) (dryRun : Bool) (g : GraphState) :
    ReplayOutcome × GraphState :=
  let changes := getChangesByTimeRange 0 targetTimestamp 1000 g
  if dryRun then
    (.planned (changes.map (fun c => ⟨c.timestamp, c.operation, c.entityType, c.entityId⟩)), g)
  else
    let g := removeNodesWhere g (fun n => !n.isEvent)
    let g := changes.foldl (fun acc c => (replayChange c acc).2) g
    (.applied changes.length, g)

/-- `ChangeHistory.createSnapshot`: capture all `:Component` properties,
all `:Task` properties, and every relationship whose type is not
`RELATES_TO` (with `type`, `sourceId`, `targetId` added from the edge and
its endpoint ids), then store the `:Snapshot` node. -/
def createSnapshot (snapshotName : String) (metadata : Obj) (g : GraphState) :
    SnapshotRec × GraphState :=
  let endId := fun (n : Nat) =>
    match findNid g n with
    | some d => (objGet d.ent.propsObj "id").getD (.scal .vnull)
    | none => Val.scal .vnull
  let capture : SnapCapture :=
    { components := g.nodes.filterMap (fun d =>
        match d.ent with
        | .comp p => some p
        | _ => none)
      tasks := g.nodes.filterMap (fun d =>
        match d.ent with
        | .task p => some p
        | _ => none)
      relationships := (g.edges.filter (fun e => !(e.relType = "RELATES_TO"))).map
        (fun e => objMerge e.props
          [("type", .scal (.str e.relType)),
           ("sourceId", endId e.src), ("targetId", endId e.tgt)]) }
  let sn : SnapshotRec :=
    { id := freshId g.nextUuid, name := snapshotName, timestamp := g.time
      extra := metadata, data := capture }
  let g := { g with nextUuid := g.nextUuid + 1, time := g.time + 1 }
  (sn, (addNode g (.snap sn)).2)

/-- Run a restore phase: apply `f` to each payload item in order,
propagating the first thrown error (the source loops bare `await`s inside
`restoreFromSnapshot`, so an error aborts the loop and the changes made
so far are kept). -/
def restorePhase {α : Type} (f : Obj → GraphState → Except String α × GraphState)
    (l : List Obj) (g : GraphState) : Except String Unit × GraphState :=
  match l with
  | [] => (.ok (), g)
  | x :: xs =>
    match f x g with
    | (.error e, g') => (.error e, g')
    | (.ok _, g') => restorePhase f xs g'

/-- Result of a successful `restoreFromSnapshot`. -/
inductive RestoreOutcome where
  | dry (name : String) (componentCount taskCount relationshipCount : Nat)
  | restored (name : String) (components tasks relationships : Nat)
deriving DecidableEq, Repr

/-- `ChangeHistory.restoreFromSnapshot`: find the snapshot (else throw),
parse its payload; dry run returns counts; otherwise clear every node
that is neither `:ChangeEvent` nor `:Snapshot`, then re-create the
components (through `createComponent`, which journals), the tasks, and
the relationships, in that order. -/
def restoreFromSnapshot (snapshotId : String) (dryRun : Bool) (g : GraphState) :
    Except String RestoreOutcome × GraphState :=
  match g.nodes.find? (fun d =>
    match d.ent with
    | .snap s => s.id = snapshotId
    | _ => false) with
  | none => (.error ("Snapshot " ++ snapshotId ++ " not found"), g)
  | some d =>
    match d.ent with
    | .snap s =>
      let data := s.data
      if dryRun then
        (.ok (.dry s.name data.components.length data.tasks.length
          data.relationships.length), g)
      else
        let g := removeNodesWhere g (fun n => !(n.isEvent || n.isSnap))
        match restorePhase (fun o => createComponent o []) data.components g with
        | (.error e, g) => (.error e, g)
        | (.ok _, g) =>
          match restorePhase createTask data.tasks g with
          | (.error e, g) => (.error e, g)
          | (.ok _, g) =>
            match restorePhase createRelationship data.relationships g with
            | (.error e, g) => (.error e, g)
            | (.ok _, g) =>
              (.ok (.restored s.name data.components.length data.tasks.length
                data.relationships.length), g)
    | _ => (.error "unreachable", g)

/-! ## Reachable states and projections used in theorem statements. -/

/-- `:Component` node property maps, in storage order. -/
def compPropsOf (g : GraphState) : List Obj :=
  g.nodes.filterMap (fun d =>
    match d.ent with
    | .comp p => some p
    | _ => none)

/-- `:Task` node property maps. -/
def taskPropsOf (g : GraphState) : List Obj :=
  g.nodes.filterMap (fun d =>
    match d.ent with
    | .task p => some p
    | _ => none)

/-- `:Comment` node property maps. -/
def commentPropsOf (g : GraphState) : List Obj :=
  g.nodes.filterMap (fun d =>
    match d.ent with
    | .comment p => some p
    | _ => none)

/-- `:Snapshot` records. -/
def snapRecsOf (g : GraphState) : List SnapshotRec :=
  g.nodes.filterMap (fun d =>
    match d.ent with
    | .snap s => some s
    | _ => none)

/-- `(operation, entityType, entityId)` projection of the journal. -/
def journalOps (g : GraphState) : List (String × String × String) :=
  (changeEventsOf g).map (fun e => (e.operation, e.entityType, e.entityId))

/-- One public mutating entry point of the store, with its inputs. -/
inductive StoreOp where
  | createComponentOp (data metadata : Obj)
  | createComponentsOp (data : List Obj) (metadata : Obj)
  | updateComponentOp (id : String) (updates : Obj)
  | deleteComponentOp (id : String)
  | createRelationshipOp (data : Obj)
  | createRelationshipsOp (data : List Obj)
  | createTaskOp (data : Obj)
  | createTasksOp (data : List Obj)
  | updateTaskStatusOp (id : String) (status : Val) (progress : Option Val)
  | createCommentOp (data : Obj)
  | updateCommentOp (id : String) (updates : Obj)
  | deleteCommentOp (id : String)
  | createSnapshotOp (name : String) (metadata : Obj)
  | restoreFromSnapshotOp (id : String) (dryRun : Bool)
  | replayToTimestampOp (target : Nat) (dryRun : Bool)

/-- The state after running one operation (whether it succeeds or
throws). -/
def applyOp (op : StoreOp) (g : GraphState) : GraphState :=
  match op with
  | .createComponentOp d m => (createComponent d m g).2
  | .createComponentsOp d m => (createComponents d m g).2
  | .updateComponentOp i u => (updateComponent i u g).2
  | .deleteComponentOp i => (deleteComponent i g).2
  | .createRelationshipOp d => (createRelationship d g).2
  | .createRelationshipsOp d => (createRelationships d g).2
  | .createTaskOp d => (createTask d g).2
  | .createTasksOp d => (createTasks d g).2
  | .updateTaskStatusOp i s p => (updateTaskStatus i s p g).2
  | .createCommentOp d => (createComment d g).2
  | .updateCommentOp i u => (updateComment i u g).2
  | .deleteCommentOp i => (deleteComment i g).2
  | .createSnapshotOp n m => (createSnapshot n m g).2
  | .restoreFromSnapshotOp i dr => (restoreFromSnapshot i dr g).2
  | .replayToTimestampOp t dr => (replayToTimestamp t dr g).2

/-- Run a sequence of operations. -/
def applyOps (ops : List StoreOp) (g : GraphState) : GraphState :=
  ops.foldl (fun acc op => applyOp op acc) g

/-- States reachable from the empty database by public operations. -/
def Reachable (g : GraphState) : Prop :=
  ∃ ops : List StoreOp, applyOps ops {} = g

/-! ## Concrete scenario states used by counterexamples and witnesses. -/

/-- Priority-ordering scenario (spec S4): three commands queued with no
waiters, priorities LOW, URGENT, MEDIUM in that order. -/
def exQueued : QueueState :=
  (sendCommand ⟨some "c-med", "TASK", "cli", some "MEDIUM", none, none⟩
    (sendCommand ⟨some "c-urg", "TASK", "cli", some "URGENT", none, none⟩
      (sendCommand ⟨some "c-low", "TASK", "cli", some "LOW", none, none⟩ {}).2).2).2

/-- The three commands as `sendCommand` stores them. -/
def exLowCmd : Command := ⟨"c-low", "TASK", "cli", some "LOW", none, none, 0, "PENDING"⟩

def exUrgCmd : Command := ⟨"c-urg", "TASK", "cli", some "URGENT", none, none, 0, "PENDING"⟩

def exMedCmd : Command := ⟨"c-med", "TASK", "cli", some "MEDIUM", none, none, 0, "PENDING"⟩

/-- Filters accepting only task type `X`. -/
def exFiltersX : Filters := { taskTypes := some ["X"] }

/-- Agent `A` waits with task-type filter `X` (registered), then a
command of task type `Y` is sent (queued, not matching), then `A` calls
`waitForCommand` again with no filters. -/
def exWaitState : QueueState :=
  (sendCommand ⟨some "c-y", "TASK", "cli", some "LOW", none, some "Y"⟩
    (waitForCommand "A" exFiltersX {}).2).2

/-- The queued `c-y` command as stored. -/
def exYCmd : Command := ⟨"c-y", "TASK", "cli", some "LOW", none, some "Y", 0, "PENDING"⟩

/-- Input for a component `{type: FILE, name: "a.js"}` (fresh id). -/
def exCompIn : Obj := [("type", .scal (.str "FILE")), ("name", .scal (.str "a.js"))]

/-- The id `uuidv4()` assigns to the first generated entity. -/
def exId0 : String := freshId 0

/-- State holding one component (and its CREATE_COMPONENT journal entry). -/
def exG1 : GraphState := (createComponent exCompIn [] {}).2

/-- `exG1` after `updateComponent` merging a description. -/
def exG1u : GraphState :=
  (updateComponent exId0 [("description", .scal (.str "root"))] exG1).2

/-- `exG1` plus a comment attached to the component. -/
def exG2 : GraphState :=
  (createComment [("nodeId", .scal (.str exId0)), ("content", .scal (.str "hi")),
    ("author", .scal (.str "u"))] exG1).2

/-- Snapshot of `exG2` (component + comment) and the state after taking it. -/
def exSnapC : SnapshotRec := (createSnapshot "s" [] exG2).1

def exG3 : GraphState := (createSnapshot "s" [] exG2).2

/-- Snapshot of `exG1` (component only) and the state after taking it. -/
def exSnapB : SnapshotRec := (createSnapshot "s" [] exG1).1

def exG1s : GraphState := (createSnapshot "s" [] exG1).2

/-- State holding one task (`TODO`, valid). -/
def exGT : GraphState :=
  (createTask [("name", .scal (.str "t")), ("status", .scal (.str "TODO"))] {}).2

/-- A graph state holding `n` change events with ascending timestamps
(and nothing else), as produced by `n` successive journal appends. -/
def exJournalOnly (n : Nat) : GraphState :=
  { nodes := (List.range n).map (fun i =>
      ⟨i, .event ⟨freshId i, "CREATE_COMPONENT", "COMPONENT", "e", [], [], i,
        "anonymous", "system", "mcp-server", []⟩⟩)
    edges := [], nextNid := n, nextEid := 0, nextUuid := n, time := n }

/-- A graph state holding a single snapshot node. -/
def exSnapOnly : GraphState :=
  { nodes := [⟨0, .snap ⟨freshId 0, "s", 0, [], ⟨[], [], []⟩⟩⟩]
    edges := [], nextNid := 1, nextEid := 0, nextUuid := 1, time := 1 }

/-- Operations reaching a state with a comment, a task relation and a
user relationship: two components, a task related to the first, a comment
on the first, and a DEPENDS_ON edge. -/
def exOps : List StoreOp :=
  [.createComponentOp exCompIn [],
   .createComponentOp [("type", .scal (.str "CLASS")), ("name", .scal (.str "K"))] [],
   .createTaskOp [("name", .scal (.str "t")), ("status", .scal (.str "TODO")),
     ("relatedComponentIds", .arr [.str exId0])],
   .createCommentOp [("nodeId", .scal (.str exId0)), ("content", .scal (.str "hi"))],
   .createRelationshipOp [("type", .scal (.str "DEPENDS_ON")),
     ("sourceId", .scal (.str exId0)), ("targetId", .scal (.str (freshId 2)))]]

/-- The state those operations reach. -/
def exReach : GraphState := applyOps exOps {}

/-- The stored property map of the scenario component. -/
def exCompProps : Obj :=
  [("id", .scal (.str exId0)), ("type", .scal (.str "FILE")),
   ("name", .scal (.str "a.js")), ("description", .scal (.str "")),
   ("path", .scal (.str "")), ("codebase", .scal (.str ""))]

/-- The scenario component as the `Component` model parses it. -/
def exCompParsed : Component :=
  ⟨exId0, "FILE", "a.js", some "", some "", some "", []⟩

/-- Agent A's wait is registered and the pending queue is empty. -/
def exWaitPrior : QueueState := (waitForCommand "A" exFiltersX {}).2

/-- A task input whose progress is outside `[0,1]`. -/
def exBadTask : Obj :=
  [("name", .scal (.str "t")), ("status", .scal (.str "TODO")),
   ("progress", .scal (.num 2))]

/-! ## Invariants of reachable graph states. -/

def NodeEnt.isTask : NodeEnt → Bool
  | .task _ => true
  | _ => false

def NodeEnt.isCommentNode : NodeEnt → Bool
  | .comment _ => true
  | _ => false

/-- Internal node identities are bounded by the counter and distinct, and
edges reference bounded identities. -/
def NidsOk (g : GraphState) : Prop :=
  (∀ d ∈ g.nodes, d.nid < g.nextNid)
  ∧ (g.nodes.map DbNode.nid).Nodup
  ∧ (∀ e ∈ g.edges, e.src < g.nextNid ∧ e.tgt < g.nextNid)

/-- Every `HAS_COMMENT` edge points at a `:Comment` node and every
`RELATES_TO` edge starts at a `:Task` node. -/
def EdgeKindsOk (g : GraphState) : Prop :=
  ∀ e ∈ g.edges,
    (e.relType = "HAS_COMMENT" →
      ∀ d ∈ g.nodes, d.nid = e.tgt → d.ent.isCommentNode = true)
    ∧ (e.relType = "RELATES_TO" →
      ∀ d ∈ g.nodes, d.nid = e.src → d.ent.isTask = true)

/-- The combined invariant maintained by every public operation. -/
def GraphInv (g : GraphState) : Prop := NidsOk g ∧ EdgeKindsOk g

/-- The one row `getComponentRelationships` matches at `exId0` in
`exReach` (direction outgoing): the DEPENDS_ON edge to the second
component. -/
def exC8Row : Edge × DbNode × String :=
  (⟨2, "DEPENDS_ON", 0, 2, [("id", .scal (.str (freshId 6)))]⟩,
   ⟨2, .comp [("id", .scal (.str (freshId 2))),
     ("type", .scal (.str "CLASS")), ("name", .scal (.str "K")),
     ("description", .scal (.str "")), ("path", .scal (.str "")),
     ("codebase", .scal (.str ""))]⟩,
   "outgoing")

/-! # Theorems -/

theorem jsonStringify_ne_empty (o : Obj) : jsonStringify o ≠ "" := by
  intro h
  have hl : (jsonStringify o).length = 0 := by rw [h]; rfl
  rw [jsonStringify] at hl
  simp only [String.length_append] at hl
  have h1 : ("\x7b" : String).length = 1 := rfl
  omega

/-- C1 (code bug): committed `updateComponent` and `deleteComponent`
calls append no ChangeEvent at all — the journal records only component
creation.  Here a component is created (one CREATE_COMPONENT entry), then
updated (the update is committed and returned) and deleted (committed),
yet the journal still holds exactly the single creation entry: no
UPDATE_COMPONENT or DELETE_COMPONENT entry exists. -/
theorem C1_update_delete_not_journaled :
    journalOps exG1 = [("CREATE_COMPONENT", "COMPONENT", exId0)]
    ∧ (∃ p, (updateComponent exId0 [("description", .scal (.str "root"))] exG1).1
        = .ok (some p))
    ∧ journalOps exG1u = [("CREATE_COMPONENT", "COMPONENT", exId0)]
    ∧ (deleteComponent exId0 exG1u).1 = .ok true
    ∧ journalOps (deleteComponent exId0 exG1u).2
        = [("CREATE_COMPONENT", "COMPONENT", exId0)]
    ∧ compPropsOf (deleteComponent exId0 exG1u).2 = [] := by
  exact ⟨rfl, ⟨_, rfl⟩, rfl, rfl, rfl, rfl⟩

/-- C9 (code bug): `recordChange` stores
`JSON.stringify(beforeState || {})`, so a CREATE entry read back through
`getEntityHistory` or `getRecentChanges` has `beforeState` equal to the
empty object `{}` — not `null` as documented. -/
theorem C9_create_beforeState_not_null :
    (getEntityHistory exId0 50 exG1).map (fun c => (c.operation, c.beforeState))
      = [("CREATE_COMPONENT", some ([] : Obj))]
    ∧ (getRecentChanges 100 none exG1).map (fun c => (c.operation, c.beforeState))
      = [("CREATE_COMPONENT", some ([] : Obj))]
    ∧ (some ([] : Obj)) ≠ (none : Option Obj) := by
  refine ⟨rfl, rfl, by decide⟩

/-- C2 counterexample: with commands queued in order LOW, URGENT, MEDIUM
and no waiters, three successive unfiltered waits receive the LOW, then
the URGENT, then the MEDIUM command — the first wait does not receive the
URGENT command, contradicting the claimed (priority desc, createdAt asc)
scan order. -/
theorem C2_counterexample :
    (waitForCommand "A" {} exQueued).1 = .received exLowCmd
    ∧ (waitForCommand "A" {} (waitForCommand "A" {} exQueued).2).1
      = .received exUrgCmd
    ∧ (waitForCommand "A" {}
        (waitForCommand "A" {} (waitForCommand "A" {} exQueued).2).2).1
      = .received exMedCmd
    ∧ exLowCmd.priority = some "LOW" ∧ exUrgCmd.priority = some "URGENT"
    ∧ exLowCmd ≠ exUrgCmd := by
  refine ⟨rfl, rfl, rfl, rfl, rfl, by decide⟩

/-- C6 counterexample: agent A holds an ACTIVE wait (filters task type X)
while a non-matching command sits in the pending queue; A then calls
`waitForCommand` again with no filters.  The call consumes the pending
command and returns early: A's prior wait is NOT rejected (it is still
registered afterwards) and no WAIT_FAILED history entry is recorded. -/
theorem C6_counterexample :
    mapGet exWaitState.waitingAgents "A" = some ⟨exFiltersX, 0⟩
    ∧ (waitForCommand "A" {} exWaitState).1 = .received exYCmd
    ∧ mapGet (waitForCommand "A" {} exWaitState).2.waitingAgents "A"
      = some ⟨exFiltersX, 0⟩
    ∧ ((waitForCommand "A" {} exWaitState).2.commandHistory.filter
        (fun e => e.action = "WAIT_FAILED")).length = 0 := by
  exact ⟨rfl, rfl, rfl, rfl⟩

/-- C7 counterexample: `updateTaskStatus` performs no validation — called
with status `"BOGUS"` (not a TaskStatus) and progress `5` (outside
`[0,1]`) on an existing task, it commits the mutation and returns the
updated node instead of rejecting. -/
theorem C7_counterexample :
    (taskPropsOf (updateTaskStatus exId0 (.scal (.str "BOGUS"))
        (some (.scal (.num 5))) exGT).2).map
        (fun p => (objGet p "status", objGet p "progress"))
      = [(some (.scal (.str "BOGUS")), some (.scal (.num 5)))]
    ∧ (∀ e, (updateTaskStatus exId0 (.scal (.str "BOGUS"))
        (some (.scal (.num 5))) exGT).1 ≠ .error e)
    ∧ TaskStatus.contains "BOGUS" = false
    ∧ ¬ ((5 : Rat) ≤ 1) := by
  refine ⟨rfl, fun e h => Except.noConfusion h, by decide, by norm_num⟩

/-- C4 (code bug): `createSnapshot` captures no Comment nodes (its
payload has only components, tasks and relationships), yet it does
capture the internal HAS_COMMENT edge, which `restoreFromSnapshot`'s own
`Relationship` validation rejects.  On a graph with one commented
component: the capture contains no comment, the non-dry restore throws,
and the comment is gone afterwards (the round trip loses it). -/
theorem C4_snapshot_misses_comments :
    exSnapC.data.components.length = 1
    ∧ exSnapC.data.tasks = []
    ∧ exSnapC.data.relationships.map (fun r => objGet r "type")
      = [some (.scal (.str "HAS_COMMENT"))]
    ∧ commentPropsOf exG3 ≠ []
    ∧ (∃ e, (restoreFromSnapshot exSnapC.id false exG3).1 = .error e)
    ∧ commentPropsOf (restoreFromSnapshot exSnapC.id false exG3).2 = [] := by
  refine ⟨rfl, rfl, rfl, by decide, ⟨_, rfl⟩, rfl⟩

/-- C5 counterexample: `getChangesByTimeRange` carries `LIMIT 1000`, so a
journal holding 1001 entries at or before the target yields a dry-run
plan of only 1000 operations — not the full set of entries with
`timestamp ≤ target`. -/
theorem C5_counterexample :
    ((changeEventsOf (exJournalOnly 1001)).filter
        (fun e => e.timestamp ≤ 2000)).length = 1001
    ∧ (match (replayToTimestamp 2000 true (exJournalOnly 1001)).1 with
       | .planned l => l.length
       | .applied _ => 0) = 1000 := by
  exact ⟨rfl, rfl⟩

/-- C2 (amended): `waitForCommand` consumes the first matching command in
the pending queue's insertion (FIFO) order, regardless of priority; in
particular, after queueing LOW, URGENT, MEDIUM with no waiters, three
successive unfiltered waits receive the LOW, then the URGENT, then the
MEDIUM command. -/
theorem C2_pending_scan_insertion_order :
    (∀ (a : String) (f : Filters) (s : QueueState) (t : Nat),
      (waitForCommand a f s t).1 =
        match findMatchingPendingCommand f s with
        | some c => WaitOutcome.received c
        | none => WaitOutcome.registered)
    ∧ (waitForCommand "A" {} exQueued).1 = .received exLowCmd
    ∧ (waitForCommand "A" {} (waitForCommand "A" {} exQueued).2).1
      = .received exUrgCmd
    ∧ (waitForCommand "A" {}
        (waitForCommand "A" {} (waitForCommand "A" {} exQueued).2).2).1
      = .received exMedCmd := by
  refine ⟨fun a f s t => ?_, rfl, rfl, rfl⟩
  cases h : findMatchingPendingCommand f s <;> simp [waitForCommand, h]

theorem mapGet_mapSet_self {β : Type} (m : List (String × β)) (k : String) (v : β) :
    mapGet (mapSet m k v) k = some v := by
  induction m with
  | nil => simp [mapSet, mapGet, List.find?]
  | cons hd tl ih =>
    by_cases h : hd.1 = k
    · simp [mapSet, h, mapGet, List.find?]
    · simp only [mapSet, if_neg h]
      simpa [mapGet, List.find?, h] using ih

theorem mem_keys_mapSet {β : Type} (m : List (String × β)) (k : String) (v : β)
    (a : String) (ha : a ∈ (mapSet m k v).map Prod.fst) :
    a ∈ m.map Prod.fst ∨ a = k := by
  induction m with
  | nil => simpa [mapSet] using ha
  | cons hd tl ih =>
    by_cases h : hd.1 = k
    · simp only [mapSet, if_pos h, List.map_cons, List.mem_cons] at ha ⊢
      rcases ha with ha | ha
      · exact Or.inr ha
      · exact Or.inl (Or.inr ha)
    · simp only [mapSet, if_neg h, List.map_cons, List.mem_cons] at ha ⊢
      rcases ha with ha | ha
      · exact Or.inl (Or.inl ha)
      · rcases ih ha with h2 | h2
        · exact Or.inl (Or.inr h2)
        · exact Or.inr h2

theorem keys_nodup_mapSet {β : Type} (m : List (String × β)) (k : String) (v : β)
    (h : (m.map Prod.fst).Nodup) : ((mapSet m k v).map Prod.fst).Nodup := by
  induction m with
  | nil => simp [mapSet]
  | cons hd tl ih =>
    simp only [List.map_cons, List.nodup_cons] at h
    by_cases hk : hd.1 = k
    · simp only [mapSet, if_pos hk, List.map_cons, List.nodup_cons]
      exact ⟨hk ▸ h.1, h.2⟩
    · simp only [mapSet, if_neg hk, List.map_cons, List.nodup_cons]
      refine ⟨fun hmem => ?_, ih h.2⟩
      rcases mem_keys_mapSet tl k v hd.1 hmem with h2 | h2
      · exact h.1 h2
      · exact hk h2

theorem mapDel_sublist {β : Type} (m : List (String × β)) (k : String) :
    (mapDel m k).Sublist m := by
  induction m with
  | nil => simp [mapDel]
  | cons hd tl ih =>
    by_cases h : hd.1 = k
    · simpa [mapDel, h] using List.sublist_cons_self hd tl
    · simpa [mapDel, h] using ih.cons₂ hd

theorem keys_nodup_mapDel {β : Type} (m : List (String × β)) (k : String)
    (h : (m.map Prod.fst).Nodup) : ((mapDel m k).map Prod.fst).Nodup :=
  ((mapDel_sublist m k).map Prod.fst).nodup h

theorem filter_key_length_le_one {β : Type} (m : List (String × β)) (b : String)
    (h : (m.map Prod.fst).Nodup) :
    (m.filter (fun kv => kv.1 = b)).length ≤ 1 := by
  induction m with
  | nil => simp
  | cons hd tl ih =>
    simp only [List.map_cons, List.nodup_cons] at h
    by_cases hb : hd.1 = b
    · have : tl.filter (fun kv => kv.1 = b) = [] := by
        rw [List.filter_eq_nil_iff]
        intro kv hkv hpb
        exact h.1 (by
          simp only [decide_eq_true_eq] at hpb
          rw [hb, ← hpb]
          exact List.mem_map_of_mem Prod.fst hkv)
      simp [List.filter_cons, hb, this]
    · simpa [List.filter_cons, hb] using ih h.2

theorem addToHistory_eq_append (action : String) (aid : Option String)
    (info : HistInfo) (s : QueueState) :
    ∃ l, (addToHistory action aid info s).commandHistory
      = l ++ [⟨s.time, action, aid, info⟩] := by
  unfold addToHistory
  by_cases h : (s.commandHistory ++ [(⟨s.time, action, aid, info⟩ : HistEntry)]).length > maxHistorySize
  · refine ⟨s.commandHistory.drop
      ((s.commandHistory ++ [(⟨s.time, action, aid, info⟩ : HistEntry)]).length - maxHistorySize), ?_⟩
    simp only [if_pos h]
    rw [List.drop_append_of_le_length]
    simp only [List.length_append, List.length_cons, List.length_nil] at h ⊢
    simp only [maxHistorySize] at h ⊢
    omega
  · exact ⟨s.commandHistory, by simp only [if_neg h]⟩

theorem mem_addToHistory_of_last (action : String) (aid : Option String)
    (info : HistInfo) (s : QueueState) (x : HistEntry) (l : List HistEntry)
    (h : s.commandHistory = l ++ [x]) :
    x ∈ (addToHistory action aid info s).commandHistory := by
  unfold addToHistory
  by_cases htrim : (s.commandHistory ++ [(⟨s.time, action, aid, info⟩ : HistEntry)]).length > maxHistorySize
  · simp only [if_pos htrim]
    rw [h, List.append_assoc]
    rw [List.drop_append_of_le_length]
    · simp
    · rw [h] at htrim
      simp only [List.length_append, List.length_cons, List.length_nil,
        maxHistorySize] at htrim ⊢
      omega
  · simp only [if_neg htrim]
    rw [h]
    simp

/-- C6 (amended): at most one ACTIVE wait exists per agentId (the waiter
registry keys stay distinct).  When `waitForCommand(agentId, …)` is
called while that agent already has an ACTIVE wait: if no pending command
matches the new filters, the prior wait is rejected — a WAIT_FAILED
history entry with the cancellation message (distinguishable from a
timeout) is recorded — and the new wait is registered; but if a matching
pending command exists, the call returns it immediately and the prior
wait stays registered untouched. -/
theorem C6_wait_exclusivity (s : QueueState) (a : String) (f : Filters) (t : Nat)
    (hnd : (s.waitingAgents.map Prod.fst).Nodup) :
    ((waitForCommand a f s t).2.waitingAgents.map Prod.fst).Nodup
    ∧ (∀ b, ((waitForCommand a f s t).2.waitingAgents.filter
        (fun kv => kv.1 = b)).length ≤ 1)
    ∧ (findMatchingPendingCommand f s = none →
        mapGet (waitForCommand a f s t).2.waitingAgents a = some ⟨f, s.time⟩
        ∧ ((mapGet s.waitingAgents a).isSome →
            ∃ e ∈ (waitForCommand a f s t).2.commandHistory,
              e.action = "WAIT_FAILED" ∧ e.agentId = some a
              ∧ e.info = .err supersededMsg))
    ∧ (∀ c, findMatchingPendingCommand f s = some c →
        (waitForCommand a f s t).2.waitingAgents = s.waitingAgents) := by
  cases h : findMatchingPendingCommand f s with
  | some c =>
    simp only [waitForCommand, h]
    exact ⟨hnd, fun b => filter_key_length_le_one _ b hnd,
      fun hn => Option.noConfusion hn, fun c' _ => rfl⟩
  | none =>
    simp only [waitForCommand, h]
    by_cases hw : (mapGet s.waitingAgents a).isSome
    · simp only [hw, if_pos]
      have hnd1 : ((mapDel s.waitingAgents a).map Prod.fst).Nodup :=
        keys_nodup_mapDel _ _ hnd
      have hnd2 := keys_nodup_mapSet (mapDel s.waitingAgents a) a
        (⟨f, s.time⟩ : Waiter) hnd1
      refine ⟨hnd2, fun b => filter_key_length_le_one _ b hnd2, ?_, fun c' hc' => Option.noConfusion hc'⟩
      intro _
      refine ⟨mapGet_mapSet_self _ _ _, fun _ => ?_⟩
      obtain ⟨l, hl⟩ := addToHistory_eq_append "WAIT_FAILED" (some a)
        (.err supersededMsg) { s with waitingAgents := mapDel s.waitingAgents a }
      exact ⟨⟨s.time, "WAIT_FAILED", some a, .err supersededMsg⟩,
        mem_addToHistory_of_last _ _ _ _ _ l hl, rfl, rfl, rfl⟩
    · simp only [hw, if_neg, Bool.false_eq_true, not_false_eq_true]
      have hnd2 := keys_nodup_mapSet s.waitingAgents a (⟨f, s.time⟩ : Waiter) hnd
      refine ⟨hnd2, fun b => filter_key_length_le_one _ b hnd2, ?_, fun c' hc' => Option.noConfusion hc'⟩
      intro _
      refine ⟨mapGet_mapSet_self _ _ _, fun hx => absurd hx (by simp [hw])⟩

/-- Witness for C6: a concrete broker state (agent A registered, empty
pending queue) satisfying the hypothesis, with the theorem's conclusion
instantiated there. -/
theorem C6_wait_exclusivity_witness :
    ((exWaitPrior.waitingAgents.map Prod.fst).Nodup)
    ∧ (((waitForCommand "A" {} exWaitPrior 300000).2.waitingAgents.map Prod.fst).Nodup
    ∧ (∀ b, ((waitForCommand "A" {} exWaitPrior 300000).2.waitingAgents.filter
        (fun kv => kv.1 = b)).length ≤ 1)
    ∧ (findMatchingPendingCommand {} exWaitPrior = none →
        mapGet (waitForCommand "A" {} exWaitPrior 300000).2.waitingAgents "A"
          = some ⟨{}, exWaitPrior.time⟩
        ∧ ((mapGet exWaitPrior.waitingAgents "A").isSome →
            ∃ e ∈ (waitForCommand "A" {} exWaitPrior 300000).2.commandHistory,
              e.action = "WAIT_FAILED" ∧ e.agentId = some "A"
              ∧ e.info = .err supersededMsg))
    ∧ (∀ c, findMatchingPendingCommand {} exWaitPrior = some c →
        (waitForCommand "A" {} exWaitPrior 300000).2.waitingAgents
          = exWaitPrior.waitingAgents)) :=
  ⟨by decide, C6_wait_exclusivity exWaitPrior "A" {} 300000 (by decide)⟩

theorem objGet_objSet_ne (o : Obj) (k0 : String) (v : Val) (k : String)
    (h : ¬ k = k0) : objGet (objSet o k0 v) k = objGet o k := by
  have h' : ¬ (k0 = k) := fun hh => h hh.symm
  induction o with
  | nil => simp [objSet, objGet, List.find?, decide_eq_false h']
  | cons hd tl ih =>
    by_cases h2 : hd.1 = k0
    · have h'' : ¬ (hd.1 = k) := by rw [h2]; exact h'
      simp [objSet, if_pos h2, objGet, List.find?, decide_eq_false h',
        decide_eq_false h'']
    · by_cases h3 : hd.1 = k
      · simp [objSet, if_neg h2, if_neg h, objGet, List.find?, h3]
      · simp only [objSet, if_neg h2]
        simpa [objGet, List.find?, decide_eq_false h3] using ih

theorem objGet_merge_one_ne (o : Obj) (k0 : String) (v : Val) (k : String)
    (h : ¬ k = k0) : objGet (objMerge o [(k0, v)]) k = objGet o k := by
  simpa [objMerge] using objGet_objSet_ne o k0 v k h

theorem parseTask_error_progress (o : Obj) (q : Rat)
    (h : objGet o "progress" = some (.scal (.num q))) (hout : q < 0 ∨ 1 < q) :
    ∃ e, parseTask o = .error e := by
  have hp : fieldNumRangeD o "progress" 0 1 0
      = .error ("out of range: " ++ "progress") := by
    simp only [fieldNumRangeD, h]
    rw [if_neg]
    rintro ⟨h1, h2⟩
    rcases hout with h3 | h3
    · exact absurd h1 (not_le.mpr h3)
    · exact absurd h2 (not_le.mpr h3)
  unfold parseTask
  cases h1 : fieldUuid o "id" with
  | error e => exact ⟨e, by simp [h1, Except.bind, Bind.bind]⟩
  | ok i =>
    cases h2 : fieldMinStr o "name" with
    | error e => exact ⟨e, by simp [h1, h2, Except.bind, Bind.bind]⟩
    | ok nm =>
      cases h3 : fieldStrOpt o "description" with
      | error e => exact ⟨e, by simp [h1, h2, h3, Except.bind, Bind.bind]⟩
      | ok ds =>
        cases h4 : fieldEnum o "status" TaskStatus with
        | error e => exact ⟨e, by simp [h1, h2, h3, h4, Except.bind, Bind.bind]⟩
        | ok st =>
          exact ⟨"out of range: " ++ "progress",
            by simp [h1, h2, h3, h4, hp, Except.bind, Bind.bind]⟩

theorem parseTask_error_status (o : Obj) (v : Val)
    (hv : objGet o "status" = some v)
    (hbad : ∀ st, v = .scal (.str st) → TaskStatus.contains st = false) :
    ∃ e, parseTask o = .error e := by
  have hst : ∃ e', fieldEnum o "status" TaskStatus = .error e' := by
    match v, hv with
    | .scal (.str st), hv =>
      have hm : st ∉ TaskStatus := by simpa using hbad st rfl
      exact ⟨"invalid enum value: " ++ "status",
        by simp [fieldEnum, fieldStr, hv, Except.bind, Bind.bind, hm]⟩
    | .scal .vnull, hv =>
      exact ⟨"expected string: " ++ "status",
        by simp [fieldEnum, fieldStr, hv, Except.bind, Bind.bind]⟩
    | .scal (.num q), hv =>
      exact ⟨"expected string: " ++ "status",
        by simp [fieldEnum, fieldStr, hv, Except.bind, Bind.bind]⟩
    | .scal (.bool b), hv =>
      exact ⟨"expected string: " ++ "status",
        by simp [fieldEnum, fieldStr, hv, Except.bind, Bind.bind]⟩
    | .obj oo, hv =>
      exact ⟨"expected string: " ++ "status",
        by simp [fieldEnum, fieldStr, hv, Except.bind, Bind.bind]⟩
    | .arr aa, hv =>
      exact ⟨"expected string: " ++ "status",
        by simp [fieldEnum, fieldStr, hv, Except.bind, Bind.bind]⟩
  obtain ⟨e', he'⟩ := hst
  unfold parseTask
  cases h1 : fieldUuid o "id" with
  | error e => exact ⟨e, by simp [h1, Except.bind, Bind.bind]⟩
  | ok i =>
    cases h2 : fieldMinStr o "name" with
    | error e => exact ⟨e, by simp [h1, h2, Except.bind, Bind.bind]⟩
    | ok nm =>
      cases h3 : fieldStrOpt o "description" with
      | error e => exact ⟨e, by simp [h1, h2, h3, Except.bind, Bind.bind]⟩
      | ok ds => exact ⟨e', by simp [h1, h2, h3, he', Except.bind, Bind.bind]⟩

/-- C7 (amended): `createTask` is validated by the `Task` model — a call
whose progress lies outside `[0,1]` or whose status is not a `TaskStatus`
value throws before any write, leaving nodes and edges untouched.
`updateTaskStatus`, by contrast, performs no validation: it never returns
an error for any status/progress arguments (it merges them as given; see
the counterexample for a committed invalid update). -/
theorem C7_task_validation :
    (∀ (taskData : Obj) (g : GraphState),
      ((∃ q, objGet taskData "progress" = some (.scal (.num q)) ∧ (q < 0 ∨ 1 < q))
        ∨ (∃ v, objGet taskData "status" = some v
            ∧ ∀ st, v = .scal (.str st) → TaskStatus.contains st = false)) →
      (∃ e, (createTask taskData g).1 = .error e)
      ∧ (createTask taskData g).2.nodes = g.nodes
      ∧ (createTask taskData g).2.edges = g.edges)
    ∧ (∀ (id : String) (status : Val) (progress : Option Val) (g : GraphState),
        ∃ r, (updateTaskStatus id status progress g).1 = .ok r) := by
  constructor
  · intro taskData g hbad
    have hAll : ∀ idVal : Val,
        ∃ e, parseTask (objMerge taskData [("id", idVal)]) = .error e := by
      intro idVal
      rcases hbad with ⟨q, hq, hout⟩ | ⟨v, hv, hforall⟩
      · exact parseTask_error_progress _ q
          ((objGet_merge_one_ne taskData "id" idVal "progress" (by decide)).trans hq)
          hout
      · exact parseTask_error_status _ v
          ((objGet_merge_one_ne taskData "id" idVal "status" (by decide)).trans hv)
          hforall
    unfold createTask
    by_cases ht : truthy (objGet taskData "id")
    · obtain ⟨e, he⟩ := hAll ((objGet taskData "id").getD (.scal .vnull))
      simp only [ht, if_true, he]
      exact ⟨⟨e, rfl⟩, trivial, trivial⟩
    · obtain ⟨e, he⟩ := hAll (Val.scal (.str (freshId g.nextUuid)))
      simp only [ht, if_false, Bool.false_eq_true, he]
      exact ⟨⟨e, rfl⟩, trivial, trivial⟩
  · intro id status progress g
    unfold updateTaskStatus
    cases h : g.nodes.find? (fun d => isTaskWithId d.ent id) with
    | none => exact ⟨none, by simp [h]⟩
    | some d =>
      refine ⟨some (setPlus d.ent.propsObj
        (match progress with
         | some p => if p = Val.scal Scal.vnull then [("status", status)]
           else objSet [("status", status)] "progress" p
         | none => [("status", status)])), by simp [h]⟩

/-- Witness for C7: the concrete bad input `{name: "t", status: "TODO",
progress: 2}` satisfies the hypothesis (progress out of range), and
`createTask` rejects it on the empty graph without mutating it. -/
theorem C7_task_validation_witness :
    ((∃ q, objGet exBadTask "progress" = some (.scal (.num q)) ∧ (q < 0 ∨ 1 < q))
      ∨ (∃ v, objGet exBadTask "status" = some v
          ∧ ∀ st, v = .scal (.str st) → TaskStatus.contains st = false))
    ∧ ((∃ e, (createTask exBadTask {}).1 = .error e)
      ∧ (createTask exBadTask {}).2.nodes = ({} : GraphState).nodes
      ∧ (createTask exBadTask {}).2.edges = ({} : GraphState).edges) :=
  ⟨Or.inl ⟨2, rfl, Or.inr (by norm_num)⟩,
   C7_task_validation.1 exBadTask {} (Or.inl ⟨2, rfl, Or.inr (by norm_num)⟩)⟩

theorem length_insertAscByTs (e : ChangeEvent) (l : List ChangeEvent) :
    (insertAscByTs e l).length = l.length + 1 := by
  induction l with
  | nil => rfl
  | cons x xs ih =>
    by_cases h : e.timestamp ≤ x.timestamp
    · simp [insertAscByTs, h]
    · simp [insertAscByTs, h, ih]

theorem length_sortAscByTs (l : List ChangeEvent) :
    (sortAscByTs l).length = l.length := by
  induction l with
  | nil => rfl
  | cons x xs ih => simp [sortAscByTs, List.foldr] at ih ⊢; rw [length_insertAscByTs, ih]

theorem mem_insertAscByTs (e a : ChangeEvent) (l : List ChangeEvent) :
    a ∈ insertAscByTs e l ↔ a = e ∨ a ∈ l := by
  induction l with
  | nil => simp [insertAscByTs]
  | cons x xs ih =>
    by_cases h : e.timestamp ≤ x.timestamp
    · simp [insertAscByTs, h]
    · simp only [insertAscByTs, if_neg h, List.mem_cons, ih]
      tauto

theorem pairwise_insertAscByTs (e : ChangeEvent) (l : List ChangeEvent)
    (h : List.Pairwise (fun a b => a.timestamp ≤ b.timestamp) l) :
    List.Pairwise (fun a b => a.timestamp ≤ b.timestamp) (insertAscByTs e l) := by
  induction l with
  | nil => simp [insertAscByTs]
  | cons x xs ih =>
    rcases List.pairwise_cons.mp h with ⟨hx, hxs⟩
    by_cases hle : e.timestamp ≤ x.timestamp
    · simp only [insertAscByTs, if_pos hle]
      refine List.pairwise_cons.mpr ⟨?_, h⟩
      intro b hb
      rcases List.mem_cons.mp hb with hb | hb
      · exact hb ▸ hle
      · exact le_trans hle (hx b hb)
    · simp only [insertAscByTs, if_neg hle]
      refine List.pairwise_cons.mpr ⟨?_, ih hxs⟩
      intro b hb
      rcases (mem_insertAscByTs e b xs).mp hb with hb | hb
      · exact hb ▸ le_of_not_le hle
      · exact hx b hb

theorem pairwise_sortAscByTs (l : List ChangeEvent) :
    List.Pairwise (fun a b => a.timestamp ≤ b.timestamp) (sortAscByTs l) := by
  induction l with
  | nil => simp [sortAscByTs]
  | cons x xs ih => exact pairwise_insertAscByTs x _ ih

/-- C5 (amended): `replayToTimestamp(T, ·)` considers the journal entries
with `timestamp ≤ T` (inclusive bound) in ascending timestamp order but
truncated by `getChangesByTimeRange`'s `LIMIT 1000`: the dry run returns
exactly the first 1000 of the ordered qualifying entries (projected), the
non-dry run applies `replayChange` to exactly that list over the cleared
graph, and whenever at most 1000 entries qualify the plan is exactly the
ordered set of all entries with `timestamp ≤ T`. -/
theorem C5_replay_considers_limited_first1000 (g : GraphState) (T : Nat) :
    (replayToTimestamp T true g).1
      = .planned (((sortAscByTs ((changeEventsOf g).filter
          (fun e => 0 ≤ e.timestamp && e.timestamp ≤ T))).take 1000).map
          (fun e => ⟨e.timestamp, e.operation, e.entityType, e.entityId⟩))
    ∧ (replayToTimestamp T true g).2 = g
    ∧ (replayToTimestamp T false g).2
      = (getChangesByTimeRange 0 T 1000 g).foldl
          (fun acc c => (replayChange c acc).2)
          (removeNodesWhere g (fun n => !n.isEvent))
    ∧ List.Pairwise (fun a b => a.timestamp ≤ b.timestamp)
        (sortAscByTs ((changeEventsOf g).filter
          (fun e => 0 ≤ e.timestamp && e.timestamp ≤ T)))
    ∧ (((changeEventsOf g).filter (fun e => e.timestamp ≤ T)).length ≤ 1000 →
        (replayToTimestamp T true g).1
          = .planned ((sortAscByTs ((changeEventsOf g).filter
              (fun e => e.timestamp ≤ T))).map
              (fun e => ⟨e.timestamp, e.operation, e.entityType, e.entityId⟩))) := by
  have hfc : (changeEventsOf g).filter (fun e => 0 ≤ e.timestamp && e.timestamp ≤ T)
      = (changeEventsOf g).filter (fun e => e.timestamp ≤ T) := by
    apply List.filter_congr
    intro a _
    simp
  refine ⟨?_, rfl, ?_, pairwise_sortAscByTs _, ?_⟩
  · simp [replayToTimestamp, getChangesByTimeRange, List.map_map]
    rfl
  · simp [replayToTimestamp]
  · intro hlen
    have htake : (sortAscByTs ((changeEventsOf g).filter
        (fun e => e.timestamp ≤ T))).take 1000
        = sortAscByTs ((changeEventsOf g).filter (fun e => e.timestamp ≤ T)) := by
      apply List.take_of_length_le
      rw [length_sortAscByTs]
      exact hlen
    simp only [replayToTimestamp, getChangesByTimeRange, if_pos, List.map_map]
    rw [hfc, htake]
    rfl

/-- Witness for C5: a three-entry journal with target timestamp 1 has at
most 1000 qualifying entries, so the plan is exactly the ordered set of
entries with `timestamp ≤ 1`. -/
theorem C5_replay_witness :
    ((changeEventsOf (exJournalOnly 3)).filter
        (fun e => e.timestamp ≤ 1)).length ≤ 1000
    ∧ (replayToTimestamp 1 true (exJournalOnly 3)).1
        = .planned ((sortAscByTs ((changeEventsOf (exJournalOnly 3)).filter
            (fun e => e.timestamp ≤ 1))).map
            (fun e => ⟨e.timestamp, e.operation, e.entityType, e.entityId⟩)) :=
  ⟨by decide, (C5_replay_considers_limited_first1000 (exJournalOnly 3) 1).2.2.2.2 (by decide)⟩

theorem evs_filter_of_keep_events (ns : List DbNode) (p : NodeEnt → Bool)
    (hp : ∀ ev, p (.event ev) = false) :
    (ns.filter (fun d => !(p d.ent))).filterMap (fun d =>
      match d.ent with
      | .event e => some e
      | _ => none)
    = ns.filterMap (fun d =>
      match d.ent with
      | .event e => some e
      | _ => none) := by
  induction ns with
  | nil => rfl
  | cons hd tl ih =>
    cases hent : hd.ent with
    | event ev => simp [List.filter_cons, List.filterMap_cons, hent, hp ev, ih]
    | comp pp =>
      by_cases hpd : p hd.ent
      · simp [List.filter_cons, List.filterMap_cons, hent ▸ hpd, hent, ih]
      · simp [List.filter_cons, List.filterMap_cons, hent ▸ hpd, hent, ih]
    | task pp =>
      by_cases hpd : p hd.ent
      · simp [List.filter_cons, List.filterMap_cons, hent ▸ hpd, hent, ih]
      · simp [List.filter_cons, List.filterMap_cons, hent ▸ hpd, hent, ih]
    | comment pp =>
      by_cases hpd : p hd.ent
      · simp [List.filter_cons, List.filterMap_cons, hent ▸ hpd, hent, ih]
      · simp [List.filter_cons, List.filterMap_cons, hent ▸ hpd, hent, ih]
    | snap sn =>
      by_cases hpd : p hd.ent
      · simp [List.filter_cons, List.filterMap_cons, hent ▸ hpd, hent, ih]
      · simp [List.filter_cons, List.filterMap_cons, hent ▸ hpd, hent, ih]

theorem changeEventsOf_removeNodesWhere (g : GraphState) (p : NodeEnt → Bool)
    (hp : ∀ ev, p (.event ev) = false) :
    changeEventsOf (removeNodesWhere g p) = changeEventsOf g :=
  evs_filter_of_keep_events g.nodes p hp

theorem snaps_filter_of_pred (ns : List DbNode) (p : NodeEnt → Bool) :
    (ns.filter (fun d => !(p d.ent))).filterMap (fun d =>
      match d.ent with
      | .snap s => some s
      | _ => none)
    = (ns.filterMap (fun d =>
        match d.ent with
        | .snap s => if p (.snap s) then none else some s
        | _ => none)) := by
  induction ns with
  | nil => rfl
  | cons hd tl ih =>
    cases hent : hd.ent with
    | snap sn =>
      by_cases hpd : p (.snap sn)
      · simp [List.filter_cons, List.filterMap_cons, hent, hpd, ih]
      · simp [List.filter_cons, List.filterMap_cons, hent, hpd, ih]
    | event ev =>
      by_cases hpd : p hd.ent
      · simp [List.filter_cons, List.filterMap_cons, hent ▸ hpd, hent, ih]
      · simp [List.filter_cons, List.filterMap_cons, hent ▸ hpd, hent, ih]
    | comp pp =>
      by_cases hpd : p hd.ent
      · simp [List.filter_cons, List.filterMap_cons, hent ▸ hpd, hent, ih]
      · simp [List.filter_cons, List.filterMap_cons, hent ▸ hpd, hent, ih]
    | task pp =>
      by_cases hpd : p hd.ent
      · simp [List.filter_cons, List.filterMap_cons, hent ▸ hpd, hent, ih]
      · simp [List.filter_cons, List.filterMap_cons, hent ▸ hpd, hent, ih]
    | comment pp =>
      by_cases hpd : p hd.ent
      · simp [List.filter_cons, List.filterMap_cons, hent ▸ hpd, hent, ih]
      · simp [List.filter_cons, List.filterMap_cons, hent ▸ hpd, hent, ih]

theorem snapRecsOf_removeNodesWhere_keep (g : GraphState) (p : NodeEnt → Bool)
    (hp : ∀ sn, p (.snap sn) = false) :
    snapRecsOf (removeNodesWhere g p) = snapRecsOf g := by
  have h := snaps_filter_of_pred g.nodes p
  simp only [hp, if_false, Bool.false_eq_true] at h
  exact h

theorem snapRecsOf_removeNodesWhere_drop (g : GraphState) (p : NodeEnt → Bool)
    (hp : ∀ sn, p (.snap sn) = true) :
    snapRecsOf (removeNodesWhere g p) = [] := by
  have h := snaps_filter_of_pred g.nodes p
  simp only [hp, if_true] at h
  refine h.trans ?_
  induction g.nodes with
  | nil => rfl
  | cons hd tl ih => cases hent : hd.ent <;> simp [List.filterMap_cons, hent, ih]

theorem evs_recordChange (op et eid : String) (b a : Option Obj) (m : Obj)
    (g : GraphState) :
    changeEventsOf (recordChange op et eid b a m g).2
      = changeEventsOf g ++ [(recordChange op et eid b a m g).1] := by
  simp [recordChange, addNode, changeEventsOf, List.filterMap_append]

theorem snaps_recordChange (op et eid : String) (b a : Option Obj) (m : Obj)
    (g : GraphState) :
    snapRecsOf (recordChange op et eid b a m g).2 = snapRecsOf g := by
  simp [recordChange, addNode, snapRecsOf, List.filterMap_append]

theorem evs_eq_of_nodes_eq (g1 g2 : GraphState) (h : g1.nodes = g2.nodes) :
    changeEventsOf g1 = changeEventsOf g2 := by
  simp [changeEventsOf, h]

theorem snaps_eq_of_nodes_eq (g1 g2 : GraphState) (h : g1.nodes = g2.nodes) :
    snapRecsOf g1 = snapRecsOf g2 := by
  simp [snapRecsOf, h]

theorem nodes_foldl {α : Type} (f : GraphState → α → GraphState)
    (hf : ∀ s a, (f s a).nodes = s.nodes) (l : List α) (s : GraphState) :
    (l.foldl f s).nodes = s.nodes := by
  induction l generalizing s with
  | nil => rfl
  | cons x xs ih => rw [List.foldl_cons, ih, hf]

theorem nodes_relatesToLinks (tasks comps : List DbNode) (g : GraphState) :
    (tasks.foldl (fun acc tn =>
      comps.foldl (fun acc2 cn => addEdge acc2 "RELATES_TO" tn.nid cn.nid []) acc)
      g).nodes = g.nodes := by
  apply nodes_foldl
  intro s a
  apply nodes_foldl
  intro s2 a2
  rfl

theorem evs_createComponent (d m : Obj) (g : GraphState) :
    ∃ l, changeEventsOf (createComponent d m g).2 = changeEventsOf g ++ l := by
  unfold createComponent
  by_cases ht : truthy (objGet d "id")
  · simp only [ht, if_true]
    rcases hp : parseComponent (objMerge d
      [("id", (objGet d "id").getD (Val.scal Scal.vnull))]) with e | c
    · exact ⟨[], by simp [hp, changeEventsOf]⟩
    · simp only [hp]
      by_cases hc : g.nodes.any (fun d' => isCompWithId d'.ent c.id)
      · exact ⟨[], by simp [hc, changeEventsOf]⟩
      · simp only [hc, Bool.false_eq_true, if_false]
        refine ⟨[(recordChange "CREATE_COMPONENT" "COMPONENT" (propIdStr c.toNodeProps)
          none (some c.toNodeProps) m (addNode g (.comp c.toNodeProps)).2).1], ?_⟩
        rw [evs_recordChange]
        have h1 : changeEventsOf (addNode g (.comp c.toNodeProps)).2
            = changeEventsOf g := by
          simp [addNode, changeEventsOf, List.filterMap_append]
        rw [h1]
  · simp only [ht, Bool.false_eq_true, if_false]
    rcases hp : parseComponent (objMerge d
      [("id", Val.scal (.str (freshId g.nextUuid)))]) with e | c
    · exact ⟨[], by simp [hp, changeEventsOf]⟩
    · simp only [hp]
      by_cases hc : ({ g with nextUuid := g.nextUuid + 1 } : GraphState).nodes.any
          (fun d' => isCompWithId d'.ent c.id)
      · exact ⟨[], by simp [hc, changeEventsOf]⟩
      · simp only [hc, Bool.false_eq_true, if_false]
        refine ⟨[(recordChange "CREATE_COMPONENT" "COMPONENT" (propIdStr c.toNodeProps)
          none (some c.toNodeProps) m (addNode { g with nextUuid := g.nextUuid + 1 }
          (.comp c.toNodeProps)).2).1], ?_⟩
        rw [evs_recordChange]
        have h1 : changeEventsOf (addNode { g with nextUuid := g.nextUuid + 1 }
            (.comp c.toNodeProps)).2 = changeEventsOf g := by
          simp [addNode, changeEventsOf, List.filterMap_append]
        rw [h1]

theorem snaps_createComponent (d m : Obj) (g : GraphState) :
    snapRecsOf (createComponent d m g).2 = snapRecsOf g := by
  unfold createComponent
  by_cases ht : truthy (objGet d "id")
  · simp only [ht, if_true]
    rcases hp : parseComponent (objMerge d
      [("id", (objGet d "id").getD (Val.scal Scal.vnull))]) with e | c
    · simp [hp, snapRecsOf]
    · simp only [hp]
      by_cases hc : g.nodes.any (fun d' => isCompWithId d'.ent c.id)
      · simp [hc, snapRecsOf]
      · simp only [hc, Bool.false_eq_true, if_false]
        rw [snaps_recordChange]
        simp [addNode, snapRecsOf, List.filterMap_append]
  · simp only [ht, Bool.false_eq_true, if_false]
    rcases hp : parseComponent (objMerge d
      [("id", Val.scal (.str (freshId g.nextUuid)))]) with e | c
    · simp [hp, snapRecsOf]
    · simp only [hp]
      by_cases hc : ({ g with nextUuid := g.nextUuid + 1 } : GraphState).nodes.any
          (fun d' => isCompWithId d'.ent c.id)
      · simp [hc, snapRecsOf]
      · simp only [hc, Bool.false_eq_true, if_false]
        rw [snaps_recordChange]
        simp [addNode, snapRecsOf, List.filterMap_append]

theorem evs_createTask (d : Obj) (g : GraphState) :
    changeEventsOf (createTask d g).2 = changeEventsOf g := by
  unfold createTask
  by_cases ht : truthy (objGet d "id")
  · simp only [ht, if_true]
    rcases hp : parseTask (objMerge d
      [("id", (objGet d "id").getD (Val.scal Scal.vnull))]) with e | t
    · simp [hp, changeEventsOf]
    · simp only [hp]
      by_cases hc : g.nodes.any (fun d' => isTaskWithId d'.ent t.id)
      · simp [hc, changeEventsOf]
      · simp only [hc, Bool.false_eq_true, if_false]
        by_cases hr : 0 < t.relatedComponentIds.length
        · simp only [hr, if_true]
          trans changeEventsOf (addNode g (.task t.toNodeProps)).2
          · exact evs_eq_of_nodes_eq _ _ (nodes_relatesToLinks _ _ _)
          · simp [addNode, changeEventsOf, List.filterMap_append]
        · simp only [hr, if_false]
          simp [addNode, changeEventsOf, List.filterMap_append]
  · simp only [ht, Bool.false_eq_true, if_false]
    rcases hp : parseTask (objMerge d
      [("id", Val.scal (.str (freshId g.nextUuid)))]) with e | t
    · simp [hp, changeEventsOf]
    · simp only [hp]
      by_cases hc : ({ g with nextUuid := g.nextUuid + 1 } : GraphState).nodes.any
          (fun d' => isTaskWithId d'.ent t.id)
      · simp [hc, changeEventsOf]
      · simp only [hc, Bool.false_eq_true, if_false]
        by_cases hr : 0 < t.relatedComponentIds.length
        · simp only [hr, if_true]
          trans changeEventsOf (addNode { g with nextUuid := g.nextUuid + 1 }
            (.task t.toNodeProps)).2
          · exact evs_eq_of_nodes_eq _ _ (nodes_relatesToLinks _ _ _)
          · simp [addNode, changeEventsOf, List.filterMap_append]
        · simp only [hr, if_false]
          simp [addNode, changeEventsOf, List.filterMap_append]

theorem snaps_createTask (d : Obj) (g : GraphState) :
    snapRecsOf (createTask d g).2 = snapRecsOf g := by
  unfold createTask
  by_cases ht : truthy (objGet d "id")
  · simp only [ht, if_true]
    rcases hp : parseTask (objMerge d
      [("id", (objGet d "id").getD (Val.scal Scal.vnull))]) with e | t
    · simp [hp, snapRecsOf]
    · simp only [hp]
      by_cases hc : g.nodes.any (fun d' => isTaskWithId d'.ent t.id)
      · simp [hc, snapRecsOf]
      · simp only [hc, Bool.false_eq_true, if_false]
        by_cases hr : 0 < t.relatedComponentIds.length
        · simp only [hr, if_true]
          trans snapRecsOf (addNode g (.task t.toNodeProps)).2
          · exact snaps_eq_of_nodes_eq _ _ (nodes_relatesToLinks _ _ _)
          · simp [addNode, snapRecsOf, List.filterMap_append]
        · simp only [hr, if_false]
          simp [addNode, snapRecsOf, List.filterMap_append]
  · simp only [ht, Bool.false_eq_true, if_false]
    rcases hp : parseTask (objMerge d
      [("id", Val.scal (.str (freshId g.nextUuid)))]) with e | t
    · simp [hp, snapRecsOf]
    · simp only [hp]
      by_cases hc : ({ g with nextUuid := g.nextUuid + 1 } : GraphState).nodes.any
          (fun d' => isTaskWithId d'.ent t.id)
      · simp [hc, snapRecsOf]
      · simp only [hc, Bool.false_eq_true, if_false]
        by_cases hr : 0 < t.relatedComponentIds.length
        · simp only [hr, if_true]
          trans snapRecsOf (addNode { g with nextUuid := g.nextUuid + 1 }
            (.task t.toNodeProps)).2
          · exact snaps_eq_of_nodes_eq _ _ (nodes_relatesToLinks _ _ _)
          · simp [addNode, snapRecsOf, List.filterMap_append]
        · simp only [hr, if_false]
          simp [addNode, snapRecsOf, List.filterMap_append]

theorem nodes_createRelationship (d : Obj) (g : GraphState) :
    (createRelationship d g).2.nodes = g.nodes := by
  unfold createRelationship
  by_cases ht : truthy (objGet d "id")
  · simp only [ht, if_true]
    rcases hp : parseRelationship (objMerge d
      [("id", (objGet d "id").getD (Val.scal Scal.vnull))]) with e | r
    · simp only [hp]
    · simp only [hp]
      rcases hs : findComp g r.sourceId with _ | sN <;>
        rcases ht2 : findComp g r.targetId with _ | tN <;> simp [addEdge]
  · simp only [ht, Bool.false_eq_true, if_false]
    rcases hp : parseRelationship (objMerge d
      [("id", Val.scal (.str (freshId g.nextUuid)))]) with e | r
    · simp only [hp]
    · simp only [hp]
      rcases hs : findComp { g with nextUuid := g.nextUuid + 1 } r.sourceId with _ | sN <;>
        rcases ht2 : findComp { g with nextUuid := g.nextUuid + 1 } r.targetId with _ | tN <;>
        simp [addEdge]

theorem evs_createRelationship (d : Obj) (g : GraphState) :
    changeEventsOf (createRelationship d g).2 = changeEventsOf g :=
  evs_eq_of_nodes_eq _ _ (nodes_createRelationship d g)

theorem snaps_createRelationship (d : Obj) (g : GraphState) :
    snapRecsOf (createRelationship d g).2 = snapRecsOf g :=
  snaps_eq_of_nodes_eq _ _ (nodes_createRelationship d g)

theorem filterMap_map_congr {α β : Type} (ns : List α) (F : α → α) (f : α → Option β)
    (h : ∀ d ∈ ns, f (F d) = f d) : (ns.map F).filterMap f = ns.filterMap f := by
  rw [List.filterMap_map]
  exact List.filterMap_congr h

theorem evs_updateComponent (i : String) (u : Obj) (g : GraphState) :
    changeEventsOf (updateComponent i u g).2 = changeEventsOf g := by
  unfold updateComponent
  cases hf : g.nodes.find? (fun d => isCompWithId d.ent i) with
  | none => rfl
  | some d0 =>
    simp only [hf]
    refine filterMap_map_congr g.nodes _ _ ?_
    intro d _
    cases hent : d.ent with
    | comp p => by_cases hcc : isCompWithId (NodeEnt.comp p) i <;> simp [hent, hcc]
    | task p => simp [hent]
    | comment p => simp [hent]
    | event e => simp [hent]
    | snap sn => simp [hent]

theorem snaps_updateComponent (i : String) (u : Obj) (g : GraphState) :
    snapRecsOf (updateComponent i u g).2 = snapRecsOf g := by
  unfold updateComponent
  cases hf : g.nodes.find? (fun d => isCompWithId d.ent i) with
  | none => rfl
  | some d0 =>
    simp only [hf]
    refine filterMap_map_congr g.nodes _ _ ?_
    intro d _
    cases hent : d.ent with
    | comp p => by_cases hcc : isCompWithId (NodeEnt.comp p) i <;> simp [hent, hcc]
    | task p => simp [hent]
    | comment p => simp [hent]
    | event e => simp [hent]
    | snap sn => simp [hent]

theorem evs_updateTaskStatus (i : String) (st : Val) (pr : Option Val)
    (g : GraphState) :
    changeEventsOf (updateTaskStatus i st pr g).2 = changeEventsOf g := by
  unfold updateTaskStatus
  cases hf : g.nodes.find? (fun d => isTaskWithId d.ent i) with
  | none => rfl
  | some d0 =>
    simp only [hf]
    refine filterMap_map_congr g.nodes _ _ ?_
    intro d _
    cases hent : d.ent with
    | comp p => simp [hent]
    | task p => by_cases hcc : isTaskWithId (NodeEnt.task p) i <;> simp [hent, hcc]
    | comment p => simp [hent]
    | event e => simp [hent]
    | snap sn => simp [hent]

theorem snaps_updateTaskStatus (i : String) (st : Val) (pr : Option Val)
    (g : GraphState) :
    snapRecsOf (updateTaskStatus i st pr g).2 = snapRecsOf g := by
  unfold updateTaskStatus
  cases hf : g.nodes.find? (fun d => isTaskWithId d.ent i) with
  | none => rfl
  | some d0 =>
    simp only [hf]
    refine filterMap_map_congr g.nodes _ _ ?_
    intro d _
    cases hent : d.ent with
    | comp p => simp [hent]
    | task p => by_cases hcc : isTaskWithId (NodeEnt.task p) i <;> simp [hent, hcc]
    | comment p => simp [hent]
    | event e => simp [hent]
    | snap sn => simp [hent]

theorem evs_deleteComponent (i : String) (g : GraphState) :
    changeEventsOf (deleteComponent i g).2 = changeEventsOf g :=
  changeEventsOf_removeNodesWhere g _ (fun ev => rfl)

theorem snaps_deleteComponent (i : String) (g : GraphState) :
    snapRecsOf (deleteComponent i g).2 = snapRecsOf g :=
  snapRecsOf_removeNodesWhere_keep g _ (fun sn => rfl)

theorem evs_replayChange (c : ReadChange) (g : GraphState) :
    ∃ l, changeEventsOf (replayChange c g).2 = changeEventsOf g ++ l := by
  unfold replayChange
  by_cases h1 : c.operation = "CREATE_COMPONENT"
  · simp only [if_pos h1]
    exact evs_createComponent _ _ _
  by_cases h2 : c.operation = "UPDATE_COMPONENT"
  · simp only [if_neg h1, if_pos h2]
    exact ⟨[], by rw [evs_updateComponent, List.append_nil]⟩
  by_cases h3 : c.operation = "DELETE_COMPONENT"
  · simp only [if_neg h1, if_neg h2, if_pos h3]
    exact ⟨[], by rw [evs_deleteComponent, List.append_nil]⟩
  by_cases h4 : c.operation = "CREATE_TASK"
  · simp only [if_neg h1, if_neg h2, if_neg h3, if_pos h4]
    exact ⟨[], by rw [evs_createTask, List.append_nil]⟩
  by_cases h5 : c.operation = "UPDATE_TASK"
  · simp only [if_neg h1, if_neg h2, if_neg h3, if_neg h4, if_pos h5]
    exact ⟨[], by rw [evs_updateTaskStatus, List.append_nil]⟩
  by_cases h6 : c.operation = "CREATE_RELATIONSHIP"
  · simp only [if_neg h1, if_neg h2, if_neg h3, if_neg h4, if_neg h5, if_pos h6]
    exact ⟨[], by rw [evs_createRelationship, List.append_nil]⟩
  · simp only [if_neg h1, if_neg h2, if_neg h3, if_neg h4, if_neg h5, if_neg h6]
    exact ⟨[], by rw [List.append_nil]⟩

theorem snaps_replayChange (c : ReadChange) (g : GraphState) :
    snapRecsOf (replayChange c g).2 = snapRecsOf g := by
  unfold replayChange
  by_cases h1 : c.operation = "CREATE_COMPONENT"
  · simp only [if_pos h1]
    exact snaps_createComponent _ _ _
  by_cases h2 : c.operation = "UPDATE_COMPONENT"
  · simp only [if_neg h1, if_pos h2]
    exact snaps_updateComponent _ _ _
  by_cases h3 : c.operation = "DELETE_COMPONENT"
  · simp only [if_neg h1, if_neg h2, if_pos h3]
    exact snaps_deleteComponent _ _
  by_cases h4 : c.operation = "CREATE_TASK"
  · simp only [if_neg h1, if_neg h2, if_neg h3, if_pos h4]
    exact snaps_createTask _ _
  by_cases h5 : c.operation = "UPDATE_TASK"
  · simp only [if_neg h1, if_neg h2, if_neg h3, if_neg h4, if_pos h5]
    exact snaps_updateTaskStatus _ _ _ _
  by_cases h6 : c.operation = "CREATE_RELATIONSHIP"
  · simp only [if_neg h1, if_neg h2, if_neg h3, if_neg h4, if_neg h5, if_pos h6]
    exact snaps_createRelationship _ _
  · simp only [if_neg h1, if_neg h2, if_neg h3, if_neg h4, if_neg h5, if_neg h6]

theorem evs_foldl_replay (cs : List ReadChange) (g : GraphState) :
    ∃ l, changeEventsOf (cs.foldl (fun acc c => (replayChange c acc).2) g)
      = changeEventsOf g ++ l := by
  induction cs generalizing g with
  | nil => exact ⟨[], by simp⟩
  | cons c cs ih =>
    obtain ⟨l1, h1⟩ := evs_replayChange c g
    obtain ⟨l2, h2⟩ := ih (replayChange c g).2
    exact ⟨l1 ++ l2, by rw [List.foldl_cons, h2, h1, List.append_assoc]⟩

theorem snaps_foldl_replay (cs : List ReadChange) (g : GraphState) :
    snapRecsOf (cs.foldl (fun acc c => (replayChange c acc).2) g) = snapRecsOf g := by
  induction cs generalizing g with
  | nil => rfl
  | cons c cs ih => rw [List.foldl_cons, ih, snaps_replayChange]

theorem evs_restorePhase {α : Type} (f : Obj → GraphState → Except String α × GraphState)
    (hf : ∀ o g, ∃ l, changeEventsOf (f o g).2 = changeEventsOf g ++ l)
    (l : List Obj) (g : GraphState) :
    ∃ l', changeEventsOf (restorePhase f l g).2 = changeEventsOf g ++ l' := by
  induction l generalizing g with
  | nil => exact ⟨[], by simp [restorePhase]⟩
  | cons x xs ih =>
    obtain ⟨l1, h1⟩ := hf x g
    rcases hfx : f x g with ⟨r, g'⟩
    rw [hfx] at h1
    cases r with
    | error e => exact ⟨l1, by simp only [restorePhase, hfx]; exact h1⟩
    | ok a =>
      obtain ⟨l2, h2⟩ := ih g'
      exact ⟨l1 ++ l2, by
        simp only [restorePhase, hfx]
        rw [h2, h1, List.append_assoc]⟩

theorem snaps_restorePhase {α : Type} (f : Obj → GraphState → Except String α × GraphState)
    (hf : ∀ o g, snapRecsOf (f o g).2 = snapRecsOf g)
    (l : List Obj) (g : GraphState) :
    snapRecsOf (restorePhase f l g).2 = snapRecsOf g := by
  induction l generalizing g with
  | nil => simp [restorePhase]
  | cons x xs ih =>
    have h1 := hf x g
    rcases hfx : f x g with ⟨r, g'⟩
    rw [hfx] at h1
    cases r with
    | error e => simp only [restorePhase, hfx]; exact h1
    | ok a =>
      simp only [restorePhase, hfx]
      rw [ih g', h1]

/-- C3 counterexample: on a graph holding one Snapshot record, a non-dry
`replayToTimestamp` deletes it (its clear step removes every node that is
not a `:ChangeEvent`), so restore/replay do not both preserve snapshots. -/
theorem C3_counterexample :
    snapRecsOf exSnapOnly ≠ []
    ∧ snapRecsOf (replayToTimestamp 2000 false exSnapOnly).2 = [] := by
  exact ⟨by decide, rfl⟩

/-- C3 (amended): `restoreFromSnapshot` never deletes a Snapshot record or
a ChangeEvent (journal) record, in any mode and on any outcome; dry-run
replay changes nothing; but non-dry `replayToTimestamp` — while never
deleting ChangeEvent records — deletes every Snapshot record (its clear
keeps only `:ChangeEvent` nodes). -/
theorem C3_restore_preserves_replay_deletes_snapshots :
    (∀ (g : GraphState) (sid : String) (dr : Bool),
      snapRecsOf (restoreFromSnapshot sid dr g).2 = snapRecsOf g
      ∧ ∃ l, changeEventsOf (restoreFromSnapshot sid dr g).2 = changeEventsOf g ++ l)
    ∧ (∀ (g : GraphState) (T : Nat),
        ∃ l, changeEventsOf (replayToTimestamp T false g).2 = changeEventsOf g ++ l)
    ∧ (∀ (g : GraphState) (T : Nat),
        snapRecsOf (replayToTimestamp T false g).2 = [])
    ∧ (∀ (g : GraphState) (T : Nat), (replayToTimestamp T true g).2 = g) := by
  have hfComp : ∀ (o : Obj) (g : GraphState),
      snapRecsOf ((fun o => createComponent o []) o g).2 = snapRecsOf g :=
    fun o g => snaps_createComponent o [] g
  have hfCompE : ∀ (o : Obj) (g : GraphState),
      ∃ l, changeEventsOf ((fun o => createComponent o []) o g).2
        = changeEventsOf g ++ l :=
    fun o g => evs_createComponent o [] g
  have hfTaskE : ∀ (o : Obj) (g : GraphState),
      ∃ l, changeEventsOf (createTask o g).2 = changeEventsOf g ++ l :=
    fun o g => ⟨[], by rw [evs_createTask, List.append_nil]⟩
  have hfRelE : ∀ (o : Obj) (g : GraphState),
      ∃ l, changeEventsOf (createRelationship o g).2 = changeEventsOf g ++ l :=
    fun o g => ⟨[], by rw [evs_createRelationship, List.append_nil]⟩
  refine ⟨?_, ?_, ?_, ?_⟩
  · intro g sid dr
    unfold restoreFromSnapshot
    cases hfind : g.nodes.find? (fun d =>
      match d.ent with
      | .snap s => s.id = sid
      | _ => false) with
    | none => exact ⟨rfl, ⟨[], by simp⟩⟩
    | some d =>
      simp only [hfind]
      cases hent : d.ent with
      | comp p => exact ⟨rfl, ⟨[], by simp⟩⟩
      | task p => exact ⟨rfl, ⟨[], by simp⟩⟩
      | comment p => exact ⟨rfl, ⟨[], by simp⟩⟩
      | event e => exact ⟨rfl, ⟨[], by simp⟩⟩
      | snap s =>
        cases dr with
        | true => exact ⟨rfl, ⟨[], by simp⟩⟩
        | false =>
          simp only [Bool.false_eq_true, if_false]
          have hclr1 : snapRecsOf (removeNodesWhere g
              (fun n => !(n.isEvent || n.isSnap))) = snapRecsOf g :=
            snapRecsOf_removeNodesWhere_keep g _ (fun sn => rfl)
          have hclr2 : changeEventsOf (removeNodesWhere g
              (fun n => !(n.isEvent || n.isSnap))) = changeEventsOf g :=
            changeEventsOf_removeNodesWhere g _ (fun ev => rfl)
          rcases h1 : restorePhase (fun o => createComponent o []) s.data.components
            (removeNodesWhere g (fun n => !(n.isEvent || n.isSnap))) with ⟨r1, g2⟩
          have hs1 : snapRecsOf g2 = snapRecsOf g := by
            have := snaps_restorePhase _ hfComp s.data.components
              (removeNodesWhere g (fun n => !(n.isEvent || n.isSnap)))
            rw [h1] at this
            rw [this, hclr1]
          have he1 : ∃ l, changeEventsOf g2 = changeEventsOf g ++ l := by
            obtain ⟨l, hl⟩ := evs_restorePhase _ hfCompE s.data.components
              (removeNodesWhere g (fun n => !(n.isEvent || n.isSnap)))
            rw [h1] at hl
            exact ⟨l, by rw [hl, hclr2]⟩
          cases r1 with
          | error e => exact ⟨hs1, he1⟩
          | ok a =>
            rcases h2 : restorePhase createTask s.data.tasks g2 with ⟨r2, g3⟩
            simp only [h2]
            have hs2 : snapRecsOf g3 = snapRecsOf g := by
              have := snaps_restorePhase createTask
                (fun o gg => snaps_createTask o gg) s.data.tasks g2
              rw [h2] at this
              rw [this, hs1]
            have he2 : ∃ l, changeEventsOf g3 = changeEventsOf g ++ l := by
              obtain ⟨l1, hl1⟩ := he1
              obtain ⟨l2, hl2⟩ := evs_restorePhase createTask hfTaskE s.data.tasks g2
              rw [h2] at hl2
              exact ⟨l1 ++ l2, by rw [hl2, hl1, List.append_assoc]⟩
            cases r2 with
            | error e => exact ⟨hs2, he2⟩
            | ok a2 =>
              rcases h3 : restorePhase createRelationship s.data.relationships g3
                with ⟨r3, g4⟩
              simp only [h3]
              have hs3 : snapRecsOf g4 = snapRecsOf g := by
                have := snaps_restorePhase createRelationship
                  (fun o gg => snaps_createRelationship o gg) s.data.relationships g3
                rw [h3] at this
                rw [this, hs2]
              have he3 : ∃ l, changeEventsOf g4 = changeEventsOf g ++ l := by
                obtain ⟨l1, hl1⟩ := he2
                obtain ⟨l2, hl2⟩ := evs_restorePhase createRelationship hfRelE
                  s.data.relationships g3
                rw [h3] at hl2
                exact ⟨l1 ++ l2, by rw [hl2, hl1, List.append_assoc]⟩
              cases r3 with
              | error e => exact ⟨hs3, he3⟩
              | ok a3 => exact ⟨hs3, he3⟩
  · intro g T
    unfold replayToTimestamp
    simp only [Bool.false_eq_true, if_false]
    have hclr : changeEventsOf (removeNodesWhere g (fun n => !n.isEvent))
        = changeEventsOf g :=
      changeEventsOf_removeNodesWhere g _ (fun ev => rfl)
    obtain ⟨l, hl⟩ := evs_foldl_replay (getChangesByTimeRange 0 T 1000 g)
      (removeNodesWhere g (fun n => !n.isEvent))
    exact ⟨l, by rw [hl, hclr]⟩
  · intro g T
    unfold replayToTimestamp
    simp only [Bool.false_eq_true, if_false]
    rw [snaps_foldl_replay]
    exact snapRecsOf_removeNodesWhere_drop g _ (fun sn => rfl)
  · intro g T
    rfl

theorem objSet_self (o : Obj) (k : String) (v : Val) (h : objGet o k = some v) :
    objSet o k v = o := by
  induction o with
  | nil => simp [objGet, List.find?] at h
  | cons hd tl ih =>
    by_cases h2 : hd.1 = k
    · simp only [objSet, if_pos h2]
      have : hd.2 = v := by
        simp [objGet, List.find?, decide_eq_true h2] at h
        exact h
      rw [← h2, ← this]
    · simp only [objSet, if_neg h2]
      rw [ih]
      simpa [objGet, List.find?, decide_eq_false h2] using h

theorem objMerge_single (o : Obj) (k : String) (v : Val) :
    objMerge o [(k, v)] = objSet o k v := by
  simp [objMerge]

theorem truthy_str (u : String) (h : ¬ (u = "")) :
    truthy (some (Val.scal (.str u))) = true := by
  simp [truthy, h]

theorem createComponent_success (p : Obj) (g : GraphState) (u : String)
    (c : Component)
    (hid : objGet p "id" = some (.scal (.str u))) (hne : ¬ (u = ""))
    (hparse : parseComponent p = .ok c)
    (hnoconf : g.nodes.any (fun d => isCompWithId d.ent c.id) = false) :
    createComponent p [] g
      = (.ok c.toNodeProps,
         (recordChange "CREATE_COMPONENT" "COMPONENT" (propIdStr c.toNodeProps)
           none (some c.toNodeProps) [] (addNode g (.comp c.toNodeProps)).2).2) := by
  unfold createComponent
  have ht : truthy (objGet p "id") = true := by rw [hid]; exact truthy_str u hne
  have hset : objMerge p [("id", (objGet p "id").getD (Val.scal Scal.vnull))] = p := by
    rw [hid]
    rw [objMerge_single]
    exact objSet_self p "id" _ hid
  simp only [ht, if_true, hset, hparse, hnoconf, Bool.false_eq_true, if_false]

theorem no_comps_after_clear (g : GraphState) (i : String) :
    (removeNodesWhere g (fun n => !(n.isEvent || n.isSnap))).nodes.any
      (fun d => isCompWithId d.ent i) = false := by
  rw [List.any_eq_false]
  intro d hd
  rcases List.mem_filter.mp hd with ⟨_, hkeep⟩
  cases hent : d.ent with
  | comp pp =>
    rw [hent] at hkeep
    simp [NodeEnt.isEvent, NodeEnt.isSnap] at hkeep
  | task pp => simp [isCompWithId, hent]
  | comment pp => simp [isCompWithId, hent]
  | event ev => simp [isCompWithId, hent]
  | snap sn => simp [isCompWithId, hent]

theorem evs_restorePhase_eq {α : Type}
    (f : Obj → GraphState → Except String α × GraphState)
    (hf : ∀ o g, changeEventsOf (f o g).2 = changeEventsOf g)
    (l : List Obj) (g : GraphState) :
    changeEventsOf (restorePhase f l g).2 = changeEventsOf g := by
  induction l generalizing g with
  | nil => simp [restorePhase]
  | cons x xs ih =>
    have h1 := hf x g
    rcases hfx : f x g with ⟨r, g'⟩
    rw [hfx] at h1
    cases r with
    | error e => simp only [restorePhase, hfx]; exact h1
    | ok a =>
      simp only [restorePhase, hfx]
      rw [ih g', h1]

theorem restore_components_journal (comps : List Obj) (g : GraphState)
    (hc : ∀ p ∈ comps, ∃ u c, objGet p "id" = some (.scal (.str u)) ∧ ¬ (u = "")
      ∧ parseComponent p = .ok c ∧ c.id = u
      ∧ objGet c.toNodeProps "id" = some (.scal (.str u)))
    (hnd : (comps.map (fun p => objGet p "id")).Nodup)
    (hg : ∀ p ∈ comps, ∀ u, objGet p "id" = some (.scal (.str u)) →
      g.nodes.any (fun d => isCompWithId d.ent u) = false) :
    (restorePhase (fun o => createComponent o []) comps g).1 = .ok ()
    ∧ journalOps (restorePhase (fun o => createComponent o []) comps g).2
      = journalOps g
        ++ comps.map (fun p => ("CREATE_COMPONENT", "COMPONENT", propIdStr p)) := by
  induction comps generalizing g with
  | nil => exact ⟨rfl, by simp [restorePhase]⟩
  | cons p rest ih =>
    obtain ⟨u, c, hid, hne, hparse, hcid, hstored⟩ := hc p (List.mem_cons_self p rest)
    rw [List.map_cons, List.nodup_cons] at hnd
    have hnoconf : g.nodes.any (fun d => isCompWithId d.ent c.id) = false := by
      rw [hcid]
      exact hg p (List.mem_cons_self p rest) u hid
    have hcc := createComponent_success p g u c hid hne hparse hnoconf
    -- the state after this component is created and journaled
    have hg2nodes : (recordChange "CREATE_COMPONENT" "COMPONENT"
        (propIdStr c.toNodeProps) none (some c.toNodeProps) []
        (addNode g (.comp c.toNodeProps)).2).2.nodes
        = g.nodes ++ [⟨g.nextNid, .comp c.toNodeProps⟩]
          ++ [⟨g.nextNid + 1, .event (recordChange "CREATE_COMPONENT" "COMPONENT"
              (propIdStr c.toNodeProps) none (some c.toNodeProps) []
              (addNode g (.comp c.toNodeProps)).2).1⟩] := by
      simp [recordChange, addNode]
    have hrest := ih (recordChange "CREATE_COMPONENT" "COMPONENT"
        (propIdStr c.toNodeProps) none (some c.toNodeProps) []
        (addNode g (.comp c.toNodeProps)).2).2
      (fun q hq => hc q (List.mem_cons_of_mem p hq))
      hnd.2
      (by
        intro q hq u' hid'
        rw [List.any_eq_false]
        intro d hd
        rw [hg2nodes] at hd
        rcases List.mem_append.mp hd with hd | hd
        · rcases List.mem_append.mp hd with hd | hd
          · have := hg q (List.mem_cons_of_mem p hq) u' hid'
            rw [List.any_eq_false] at this
            exact this d hd
          · rcases List.mem_singleton.mp hd with rfl
            have hneq : ¬ (u = u') := by
              intro hequ
              have hhd : (some (Val.scal (.str u)) : Option Val) ∈
                  rest.map (fun p => objGet p "id") := by
                refine List.mem_map.mpr ⟨q, hq, ?_⟩
                rw [hid', hequ]
              have := hnd.1
              rw [hid] at this
              exact this hhd
            simp only [isCompWithId, hstored]
            simp [hneq]
        · rcases List.mem_singleton.mp hd with rfl
          simp [isCompWithId])
    constructor
    · simp only [restorePhase, hcc]
      exact hrest.1
    · simp only [restorePhase, hcc]
      rw [hrest.2]
      have hj2 : journalOps (recordChange "CREATE_COMPONENT" "COMPONENT"
          (propIdStr c.toNodeProps) none (some c.toNodeProps) []
          (addNode g (.comp c.toNodeProps)).2).2
          = journalOps g ++ [("CREATE_COMPONENT", "COMPONENT", propIdStr p)] := by
        unfold journalOps
        rw [evs_recordChange]
        have h1 : changeEventsOf (addNode g (.comp c.toNodeProps)).2
            = changeEventsOf g := by
          simp [addNode, changeEventsOf, List.filterMap_append]
        rw [h1, List.map_append]
        congr 1
        simp [recordChange, propIdStr, hstored, hid]
      rw [hj2, List.append_assoc]
      simp

/-- C10 (confirmed): a non-dry `restoreFromSnapshot` leaves the Change
Journal equal to the journal before the restore plus exactly one new
CREATE_COMPONENT entry per component in the snapshot payload (component
restoration goes through `createComponent`, which records history), while
the restored tasks and relationships — whatever their outcome — add no
journal entries; with a non-empty component payload the journal is
therefore not left unchanged. -/
theorem C10_restore_journals_components (g : GraphState) (sid : String)
    (d : DbNode) (s : SnapshotRec)
    (hfind : g.nodes.find? (fun d =>
      match d.ent with
      | .snap s => s.id = sid
      | _ => false) = some d)
    (hent : d.ent = .snap s)
    (hc : ∀ p ∈ s.data.components, ∃ u c,
      objGet p "id" = some (.scal (.str u)) ∧ ¬ (u = "")
      ∧ parseComponent p = .ok c ∧ c.id = u
      ∧ objGet c.toNodeProps "id" = some (.scal (.str u)))
    (hnd : (s.data.components.map (fun p => objGet p "id")).Nodup) :
    journalOps (restoreFromSnapshot sid false g).2
      = journalOps g
        ++ s.data.components.map (fun p => ("CREATE_COMPONENT", "COMPONENT", propIdStr p))
    ∧ (s.data.components ≠ [] →
        journalOps (restoreFromSnapshot sid false g).2 ≠ journalOps g) := by
  have hmain : journalOps (restoreFromSnapshot sid false g).2
      = journalOps g
        ++ s.data.components.map (fun p => ("CREATE_COMPONENT", "COMPONENT", propIdStr p)) := by
    unfold restoreFromSnapshot
    simp only [hfind, hent, Bool.false_eq_true, if_false]
    have hjclr : journalOps (removeNodesWhere g (fun n => !(n.isEvent || n.isSnap)))
        = journalOps g := by
      unfold journalOps
      rw [changeEventsOf_removeNodesWhere g _ (fun ev => rfl)]
    obtain ⟨hok, hjr⟩ := restore_components_journal s.data.components
      (removeNodesWhere g (fun n => !(n.isEvent || n.isSnap))) hc hnd
      (fun p _ u _ => no_comps_after_clear g u)
    rcases h1 : restorePhase (fun o => createComponent o []) s.data.components
      (removeNodesWhere g (fun n => !(n.isEvent || n.isSnap))) with ⟨r1, g2⟩
    rw [h1] at hok hjr
    have hok2 : r1 = Except.ok () := hok
    subst hok2
    have hjg2 : journalOps g2 = journalOps g
        ++ s.data.components.map (fun p => ("CREATE_COMPONENT", "COMPONENT", propIdStr p)) := by
      rw [hjclr] at hjr
      exact hjr
    rcases h2 : restorePhase createTask s.data.tasks g2 with ⟨r2, g3⟩
    simp only [h2]
    have hjg3 : journalOps g3 = journalOps g2 := by
      have h := evs_restorePhase_eq createTask (fun o gg => evs_createTask o gg)
        s.data.tasks g2
      rw [h2] at h
      unfold journalOps
      rw [h]
    cases r2 with
    | error e => exact hjg3.trans hjg2
    | ok a2 =>
      rcases h3 : restorePhase createRelationship s.data.relationships g3 with ⟨r3, g4⟩
      simp only [h3]
      have hjg4 : journalOps g4 = journalOps g3 := by
        have h := evs_restorePhase_eq createRelationship
          (fun o gg => evs_createRelationship o gg) s.data.relationships g3
        rw [h3] at h
        unfold journalOps
        rw [h]
      cases r3 with
      | error e => exact (hjg4.trans hjg3).trans hjg2
      | ok a3 => exact (hjg4.trans hjg3).trans hjg2
  refine ⟨hmain, fun hne heq => ?_⟩
  rw [hmain] at heq
  have : s.data.components.map
      (fun p => ("CREATE_COMPONENT", "COMPONENT", propIdStr p)) = [] := by
    have h0 : journalOps g ++ s.data.components.map
        (fun p => ("CREATE_COMPONENT", "COMPONENT", propIdStr p))
        = journalOps g ++ [] := by rw [List.append_nil]; exact heq
    exact List.append_cancel_left h0
  exact hne (List.map_eq_nil_iff.mp this)

/-- Witness for C10: the single-component snapshot scenario satisfies all
hypotheses, and the restore appends exactly one CREATE_COMPONENT entry. -/
theorem C10_restore_journals_components_witness :
    (exG1s.nodes.find? (fun d =>
      match d.ent with
      | .snap s => s.id = exSnapB.id
      | _ => false) = some ⟨2, .snap exSnapB⟩)
    ∧ ((⟨2, .snap exSnapB⟩ : DbNode).ent = .snap exSnapB)
    ∧ (∀ p ∈ exSnapB.data.components, ∃ u c,
        objGet p "id" = some (.scal (.str u)) ∧ ¬ (u = "")
        ∧ parseComponent p = .ok c ∧ c.id = u
        ∧ objGet c.toNodeProps "id" = some (.scal (.str u)))
    ∧ (exSnapB.data.components.map (fun p => objGet p "id")).Nodup
    ∧ (journalOps (restoreFromSnapshot exSnapB.id false exG1s).2
        = journalOps exG1s
          ++ exSnapB.data.components.map
            (fun p => ("CREATE_COMPONENT", "COMPONENT", propIdStr p))
      ∧ (exSnapB.data.components ≠ [] →
          journalOps (restoreFromSnapshot exSnapB.id false exG1s).2
            ≠ journalOps exG1s)) := by
  have hc : ∀ p ∈ exSnapB.data.components, ∃ u c,
      objGet p "id" = some (.scal (.str u)) ∧ ¬ (u = "")
      ∧ parseComponent p = .ok c ∧ c.id = u
      ∧ objGet c.toNodeProps "id" = some (.scal (.str u)) := by
    intro p hp
    rw [show exSnapB.data.components = [exCompProps] from rfl] at hp
    rcases List.mem_singleton.mp hp with rfl
    exact ⟨exId0, exCompParsed, rfl, by decide, rfl, rfl, rfl⟩
  exact ⟨rfl, rfl, hc, by decide,
    C10_restore_journals_components exG1s exSnapB.id ⟨2, .snap exSnapB⟩ exSnapB
      rfl rfl hc (by decide)⟩

/-! ## The graph invariant: preservation by the storage primitives. -/

theorem nid_inj (g : GraphState) (hnd : (g.nodes.map DbNode.nid).Nodup)
    {d d' : DbNode} (hd : d ∈ g.nodes) (hd' : d' ∈ g.nodes)
    (he : d.nid = d'.nid) : d = d' :=
  List.inj_on_of_nodup_map hnd hd hd' he

theorem not_commentNode_of_isComp (e : NodeEnt) (h : e.isComp = true) :
    e.isCommentNode = false := by
  cases e <;> simp_all [NodeEnt.isComp, NodeEnt.isCommentNode]

theorem not_task_of_isComp (e : NodeEnt) (h : e.isComp = true) :
    e.isTask = false := by
  cases e <;> simp_all [NodeEnt.isComp, NodeEnt.isTask]

theorem isComp_of_isCompWithId (e : NodeEnt) (i : String)
    (h : isCompWithId e i = true) : e.isComp = true := by
  cases e <;> simp_all [isCompWithId, NodeEnt.isComp]

theorem isTask_of_isTaskWithId (e : NodeEnt) (i : String)
    (h : isTaskWithId e i = true) : e.isTask = true := by
  cases e <;> simp_all [isTaskWithId, NodeEnt.isTask]

theorem isCommentNode_of_isCommentWithId (e : NodeEnt) (i : String)
    (h : isCommentWithId e i = true) : e.isCommentNode = true := by
  cases e <;> simp_all [isCommentWithId, NodeEnt.isCommentNode]

theorem findNid_spec (g : GraphState) (n : Nat) (d : DbNode)
    (h : findNid g n = some d) : d ∈ g.nodes ∧ d.nid = n := by
  rw [findNid] at h
  refine ⟨List.mem_of_find?_eq_some h, ?_⟩
  have h2 := List.find?_some h
  simpa using h2

theorem inv_empty : GraphInv ({} : GraphState) :=
  ⟨⟨fun d hd => absurd hd (List.not_mem_nil d), List.nodup_nil,
    fun e he => absurd he (List.not_mem_nil e)⟩,
   fun e he => absurd he (List.not_mem_nil e)⟩

theorem inv_addNode (g : GraphState) (e : NodeEnt) (h : GraphInv g) :
    GraphInv (addNode g e).2 := by
  obtain ⟨⟨hb, hnd, hee⟩, hk⟩ := h
  simp only [addNode]
  refine ⟨⟨?_, ?_, ?_⟩, ?_⟩
  · intro d hd
    rcases List.mem_append.mp hd with hd1 | hd1
    · exact Nat.lt_succ_of_lt (hb d hd1)
    · rcases List.mem_singleton.mp hd1 with rfl
      exact Nat.lt_succ_self _
  · rw [List.map_append]
    refine List.Nodup.append hnd (List.nodup_singleton _) ?_
    intro x hx hx'
    rcases List.mem_singleton.mp hx' with rfl
    rcases List.mem_map.mp hx with ⟨d, hd, hdn⟩
    exact absurd (hdn ▸ hb d hd) (lt_irrefl _)
  · intro e' he'
    exact ⟨Nat.lt_succ_of_lt (hee e' he').1, Nat.lt_succ_of_lt (hee e' he').2⟩
  · intro e' he'
    refine ⟨fun hty d hd hn => ?_, fun hty d hd hn => ?_⟩
    · rcases List.mem_append.mp hd with hd1 | hd1
      · exact (hk e' he').1 hty d hd1 hn
      · rcases List.mem_singleton.mp hd1 with rfl
        have h2 := (hee e' he').2
        dsimp only at hn
        omega
    · rcases List.mem_append.mp hd with hd1 | hd1
      · exact (hk e' he').2 hty d hd1 hn
      · rcases List.mem_singleton.mp hd1 with rfl
        have h2 := (hee e' he').1
        dsimp only at hn
        omega

theorem inv_addEdge (g : GraphState) (ty : String) (s t : Nat) (p : Obj)
    (h : GraphInv g) (hs : s < g.nextNid) (ht : t < g.nextNid)
    (hc : ty = "HAS_COMMENT" → ∀ d ∈ g.nodes, d.nid = t → d.ent.isCommentNode = true)
    (hr : ty = "RELATES_TO" → ∀ d ∈ g.nodes, d.nid = s → d.ent.isTask = true) :
    GraphInv (addEdge g ty s t p) := by
  obtain ⟨⟨hb, hnd, hee⟩, hk⟩ := h
  simp only [addEdge]
  refine ⟨⟨hb, hnd, ?_⟩, ?_⟩
  · intro e' he'
    rcases List.mem_append.mp he' with he1 | he1
    · exact hee e' he1
    · rcases List.mem_singleton.mp he1 with rfl
      exact ⟨hs, ht⟩
  · intro e' he'
    rcases List.mem_append.mp he' with he1 | he1
    · exact hk e' he1
    · rcases List.mem_singleton.mp he1 with rfl
      exact ⟨hc, hr⟩

theorem inv_removeNodesWhere (g : GraphState) (p : NodeEnt → Bool)
    (h : GraphInv g) : GraphInv (removeNodesWhere g p) := by
  obtain ⟨⟨hb, hnd, hee⟩, hk⟩ := h
  simp only [removeNodesWhere]
  refine ⟨⟨?_, ?_, ?_⟩, ?_⟩
  · intro d hd
    exact hb d (List.mem_of_mem_filter hd)
  · exact ((List.filter_sublist _).map _).nodup hnd
  · intro e' he'
    exact hee e' (List.mem_of_mem_filter he')
  · intro e' he'
    have he2 := List.mem_of_mem_filter he'
    exact ⟨fun hty d hd hn => (hk e' he2).1 hty d (List.mem_of_mem_filter hd) hn,
      fun hty d hd hn => (hk e' he2).2 hty d (List.mem_of_mem_filter hd) hn⟩

theorem inv_nodeMap (g : GraphState) (f : DbNode → DbNode)
    (hnid : ∀ d, (f d).nid = d.nid)
    (hcm : ∀ d, (f d).ent.isCommentNode = d.ent.isCommentNode)
    (htk : ∀ d, (f d).ent.isTask = d.ent.isTask)
    (h : GraphInv g) : GraphInv { g with nodes := g.nodes.map f } := by
  obtain ⟨⟨hb, hnd, hee⟩, hk⟩ := h
  refine ⟨⟨?_, ?_, hee⟩, ?_⟩
  · intro d hd
    rcases List.mem_map.mp hd with ⟨d0, hd0, rfl⟩
    rw [hnid]
    exact hb d0 hd0
  · show ((g.nodes.map f).map DbNode.nid).Nodup
    rw [List.map_map]
    rw [show g.nodes.map (DbNode.nid ∘ f) = g.nodes.map DbNode.nid from
      List.map_congr_left (fun d _ => hnid d)]
    exact hnd
  · intro e' he'
    refine ⟨fun hty d hd hn => ?_, fun hty d hd hn => ?_⟩
    · rcases List.mem_map.mp hd with ⟨d0, hd0, rfl⟩
      rw [hcm]
      exact (hk e' he').1 hty d0 hd0 (by rw [← hnid d0]; exact hn)
    · rcases List.mem_map.mp hd with ⟨d0, hd0, rfl⟩
      rw [htk]
      exact (hk e' he').2 hty d0 hd0 (by rw [← hnid d0]; exact hn)

theorem inv_rollback (g g' : GraphState) (hg : GraphInv g)
    (hmono : g.nextNid ≤ g'.nextNid) :
    GraphInv { g' with nodes := g.nodes, edges := g.edges } := by
  obtain ⟨⟨hb, hnd, hee⟩, hk⟩ := hg
  exact ⟨⟨fun d hd => lt_of_lt_of_le (hb d hd) hmono, hnd,
    fun e he => ⟨lt_of_lt_of_le (hee e he).1 hmono,
      lt_of_lt_of_le (hee e he).2 hmono⟩⟩, hk⟩

theorem foldl_preserves {β : Type} (P : GraphState → Prop)
    (f : GraphState → β → GraphState) (l : List β) (g : GraphState) (hg : P g)
    (hstep : ∀ acc b, b ∈ l → P acc → P (f acc b)) : P (l.foldl f g) := by
  induction l generalizing g with
  | nil => exact hg
  | cons x xs ih =>
    rw [List.foldl_cons]
    exact ih (f g x) (hstep g x (List.mem_cons_self x xs) hg)
      (fun acc b hb hP => hstep acc b (List.mem_cons_of_mem _ hb) hP)

theorem inv_relatesToLinks (tasks comps : List DbNode) (g : GraphState)
    (h : GraphInv g)
    (htasks : ∀ tn ∈ tasks, tn ∈ g.nodes ∧ tn.ent.isTask = true)
    (hcomps : ∀ cn ∈ comps, cn ∈ g.nodes) :
    GraphInv (tasks.foldl (fun acc tn =>
      comps.foldl (fun acc2 cn => addEdge acc2 "RELATES_TO" tn.nid cn.nid []) acc) g)
    ∧ (tasks.foldl (fun acc tn =>
      comps.foldl (fun acc2 cn => addEdge acc2 "RELATES_TO" tn.nid cn.nid []) acc)
        g).nodes = g.nodes
    ∧ (tasks.foldl (fun acc tn =>
      comps.foldl (fun acc2 cn => addEdge acc2 "RELATES_TO" tn.nid cn.nid []) acc)
        g).nextNid = g.nextNid := by
  refine foldl_preserves
    (fun s => GraphInv s ∧ s.nodes = g.nodes ∧ s.nextNid = g.nextNid)
    (fun acc tn =>
      comps.foldl (fun acc2 cn => addEdge acc2 "RELATES_TO" tn.nid cn.nid []) acc)
    tasks g ⟨h, rfl, rfl⟩ ?_
  intro acc tn htn hP
  refine foldl_preserves
    (fun s => GraphInv s ∧ s.nodes = g.nodes ∧ s.nextNid = g.nextNid)
    (fun acc2 cn => addEdge acc2 "RELATES_TO" tn.nid cn.nid []) comps acc hP ?_
  intro acc2 cn hcn hP2
  obtain ⟨hinv2, hn2, hk2⟩ := hP2
  refine ⟨?_, hn2, hk2⟩
  refine inv_addEdge acc2 "RELATES_TO" tn.nid cn.nid [] hinv2 ?_ ?_ ?_ ?_
  · rw [hk2]
    exact h.1.1 tn (htasks tn htn).1
  · rw [hk2]
    exact h.1.1 cn (hcomps cn hcn)
  · intro hty
    exact absurd hty (by decide)
  · intro _ d hd hn
    rw [hn2] at hd
    have hdq : d = tn := nid_inj g h.1.2.1 hd (htasks tn htn).1 hn
    rw [hdq]
    exact (htasks tn htn).2

theorem inv_commentLinks (ms targets : List DbNode) (g : GraphState)
    (h : GraphInv g)
    (hms : ∀ n ∈ ms, n ∈ g.nodes)
    (htargets : ∀ c ∈ targets, c ∈ g.nodes ∧ c.ent.isCommentNode = true) :
    GraphInv (ms.foldl (fun acc n =>
      targets.foldl (fun acc2 c => addEdge acc2 "HAS_COMMENT" n.nid c.nid []) acc) g)
    ∧ (ms.foldl (fun acc n =>
      targets.foldl (fun acc2 c => addEdge acc2 "HAS_COMMENT" n.nid c.nid []) acc)
        g).nodes = g.nodes
    ∧ (ms.foldl (fun acc n =>
      targets.foldl (fun acc2 c => addEdge acc2 "HAS_COMMENT" n.nid c.nid []) acc)
        g).nextNid = g.nextNid := by
  refine foldl_preserves
    (fun s => GraphInv s ∧ s.nodes = g.nodes ∧ s.nextNid = g.nextNid)
    (fun acc n =>
      targets.foldl (fun acc2 c => addEdge acc2 "HAS_COMMENT" n.nid c.nid []) acc)
    ms g ⟨h, rfl, rfl⟩ ?_
  intro acc n hnm hP
  refine foldl_preserves
    (fun s => GraphInv s ∧ s.nodes = g.nodes ∧ s.nextNid = g.nextNid)
    (fun acc2 c => addEdge acc2 "HAS_COMMENT" n.nid c.nid []) targets acc hP ?_
  intro acc2 c hcm hP2
  obtain ⟨hinv2, hn2, hk2⟩ := hP2
  refine ⟨?_, hn2, hk2⟩
  refine inv_addEdge acc2 "HAS_COMMENT" n.nid c.nid [] hinv2 ?_ ?_ ?_ ?_
  · rw [hk2]
    exact h.1.1 n (hms n hnm)
  · rw [hk2]
    exact h.1.1 c (htargets c hcm).1
  · intro _ d hd hn
    rw [hn2] at hd
    have hdq : d = c := nid_inj g h.1.2.1 hd (htargets c hcm).1 hn
    rw [hdq]
    exact (htargets c hcm).2
  · intro hty
    exact absurd hty (by decide)

theorem fieldEnum_ok_mem (o : Obj) (k : String) (e : List String) (s : String)
    (h : fieldEnum o k e = .ok s) : s ∈ e := by
  rw [fieldEnum] at h
  cases h1 : fieldStr o k with
  | error e' => simp [h1, Except.bind, Bind.bind] at h
  | ok s' =>
    simp only [h1, Except.bind, Bind.bind] at h
    by_cases h2 : s' ∈ e
    · have h3 : e.contains s' = true := by simpa using h2
      rw [if_pos h3] at h
      injection h with h4
      subst h4
      exact h2
    · have h3 : ¬ e.contains s' = true := by simpa using h2
      rw [if_neg h3] at h
      exact absurd h (by simp)

theorem parseRelationship_ok_type (o : Obj) (r : Relationship)
    (h : parseRelationship o = .ok r) : r.type ∈ RelationshipType := by
  unfold parseRelationship at h
  cases h1 : fieldUuid o "id" with
  | error e => simp [h1, Except.bind, Bind.bind] at h
  | ok i1 =>
    cases h2 : fieldEnum o "type" RelationshipType with
    | error e => simp [h1, h2, Except.bind, Bind.bind] at h
    | ok ty =>
      cases h3 : fieldUuid o "sourceId" with
      | error e => simp [h1, h2, h3, Except.bind, Bind.bind] at h
      | ok s1 =>
        cases h4 : fieldUuid o "targetId" with
        | error e => simp [h1, h2, h3, h4, Except.bind, Bind.bind] at h
        | ok t1 =>
          cases h5 : fieldRecordStrD o "details" with
          | error e => simp [h1, h2, h3, h4, h5, Except.bind, Bind.bind] at h
          | ok dd =>
            cases h6 : fieldIntMin1Opt o "timeOrder" with
            | error e => simp [h1, h2, h3, h4, h5, h6, Except.bind, Bind.bind] at h
            | ok u1 =>
              cases h7 : fieldNum0To100Opt o "probability" with
              | error e =>
                simp [h1, h2, h3, h4, h5, h6, h7, Except.bind, Bind.bind] at h
              | ok p1 =>
                cases h8 : fieldStrOpt o "reasoning" with
                | error e =>
                  simp [h1, h2, h3, h4, h5, h6, h7, h8, Except.bind, Bind.bind] at h
                | ok r1 =>
                  simp only [h1, h2, h3, h4, h5, h6, h7, h8, Except.bind, Bind.bind,
                    pure, Except.pure, Except.ok.injEq] at h
                  rw [← h]
                  exact fieldEnum_ok_mem o "type" RelationshipType ty h2

theorem relType_not_internal (s : String) (h : s ∈ RelationshipType) :
    s ≠ "HAS_COMMENT" ∧ s ≠ "RELATES_TO" := by
  fin_cases h <;> exact ⟨by decide, by decide⟩

theorem findComp_spec (g : GraphState) (i : String) (d : DbNode)
    (h : findComp g i = some d) : d ∈ g.nodes ∧ isCompWithId d.ent i = true := by
  rw [findComp] at h
  have h2 := List.find?_some h
  exact ⟨List.mem_of_find?_eq_some h, h2⟩

/-! ## The graph invariant: preservation by every public operation. -/

theorem inv_recordChange (op et ei : String) (b a : Option Obj) (m : Obj)
    (g : GraphState) (h : GraphInv g) :
    GraphInv (recordChange op et ei b a m g).2 :=
  inv_addNode { g with nextUuid := g.nextUuid + 1, time := g.time + 1 } _ h

theorem inv_createComponent (d m : Obj) (g : GraphState) (h : GraphInv g) :
    GraphInv (createComponent d m g).2 := by
  unfold createComponent
  by_cases ht : truthy (objGet d "id")
  · simp only [ht, if_true]
    rcases hp : parseComponent (objMerge d
      [("id", (objGet d "id").getD (Val.scal Scal.vnull))]) with e | c
    · simpa [hp] using h
    · simp only [hp]
      by_cases hc : g.nodes.any (fun d' => isCompWithId d'.ent c.id)
      · simpa [hc] using h
      · simp only [hc, Bool.false_eq_true, if_false]
        exact inv_recordChange _ _ _ _ _ _ _ (inv_addNode _ _ h)
  · simp only [ht, Bool.false_eq_true, if_false]
    rcases hp : parseComponent (objMerge d
      [("id", Val.scal (.str (freshId g.nextUuid)))]) with e | c
    · simpa [hp] using h
    · simp only [hp]
      by_cases hc : ({ g with nextUuid := g.nextUuid + 1 } : GraphState).nodes.any
          (fun d' => isCompWithId d'.ent c.id)
      · simpa [hc] using h
      · simp only [hc, Bool.false_eq_true, if_false]
        exact inv_recordChange _ _ _ _ _ _ _ (inv_addNode _ _ h)

theorem inv_updateComponent (i : String) (u : Obj) (g : GraphState)
    (h : GraphInv g) : GraphInv (updateComponent i u g).2 := by
  unfold updateComponent
  cases hf : g.nodes.find? (fun d => isCompWithId d.ent i) with
  | none => simpa [hf] using h
  | some d0 =>
    simp only [hf]
    refine inv_nodeMap g _ ?_ ?_ ?_ h
    · intro n
      rcases n with ⟨nid, ent⟩
      cases ent with
      | comp p => by_cases hcc : isCompWithId (NodeEnt.comp p) i <;> simp [hcc]
      | task p => rfl
      | comment p => rfl
      | event ev => rfl
      | snap sn => rfl
    · intro n
      rcases n with ⟨nid, ent⟩
      cases ent with
      | comp p =>
        by_cases hcc : isCompWithId (NodeEnt.comp p) i <;>
          simp [hcc, NodeEnt.isCommentNode]
      | task p => rfl
      | comment p => rfl
      | event ev => rfl
      | snap sn => rfl
    · intro n
      rcases n with ⟨nid, ent⟩
      cases ent with
      | comp p =>
        by_cases hcc : isCompWithId (NodeEnt.comp p) i <;>
          simp [hcc, NodeEnt.isTask]
      | task p => rfl
      | comment p => rfl
      | event ev => rfl
      | snap sn => rfl

theorem inv_deleteComponent (i : String) (g : GraphState) (h : GraphInv g) :
    GraphInv (deleteComponent i g).2 :=
  inv_removeNodesWhere g _ h

theorem inv_createRelationship (rd : Obj) (g : GraphState) (h : GraphInv g) :
    GraphInv (createRelationship rd g).2 := by
  unfold createRelationship
  by_cases ht : truthy (objGet rd "id")
  · simp only [ht, if_true]
    rcases hp : parseRelationship (objMerge rd
      [("id", (objGet rd "id").getD (Val.scal Scal.vnull))]) with e | r
    · simpa [hp] using h
    · simp only [hp]
      rcases hsn : findComp g r.sourceId with _ | sN <;>
        rcases htn : findComp g r.targetId with _ | tN
      · simpa using h
      · simpa using h
      · simpa using h
      · refine inv_addEdge g r.type sN.nid tN.nid r.toRelationProps h ?_ ?_ ?_ ?_
        · exact h.1.1 sN (findComp_spec g r.sourceId sN hsn).1
        · exact h.1.1 tN (findComp_spec g r.targetId tN htn).1
        · intro hty
          exact absurd hty
            (relType_not_internal r.type (parseRelationship_ok_type _ r hp)).1
        · intro hty
          exact absurd hty
            (relType_not_internal r.type (parseRelationship_ok_type _ r hp)).2
  · simp only [ht, Bool.false_eq_true, if_false]
    rcases hp : parseRelationship (objMerge rd
      [("id", Val.scal (.str (freshId g.nextUuid)))]) with e | r
    · simpa [hp] using h
    · simp only [hp]
      rcases hsn : findComp { g with nextUuid := g.nextUuid + 1 } r.sourceId
          with _ | sN <;>
        rcases htn : findComp { g with nextUuid := g.nextUuid + 1 } r.targetId
          with _ | tN
      · simpa using h
      · simpa using h
      · simpa using h
      · refine inv_addEdge { g with nextUuid := g.nextUuid + 1 } r.type
          sN.nid tN.nid r.toRelationProps h ?_ ?_ ?_ ?_
        · exact h.1.1 sN (findComp_spec _ r.sourceId sN hsn).1
        · exact h.1.1 tN (findComp_spec _ r.targetId tN htn).1
        · intro hty
          exact absurd hty
            (relType_not_internal r.type (parseRelationship_ok_type _ r hp)).1
        · intro hty
          exact absurd hty
            (relType_not_internal r.type (parseRelationship_ok_type _ r hp)).2

theorem inv_createTask (td : Obj) (g : GraphState) (h : GraphInv g) :
    GraphInv (createTask td g).2 := by
  unfold createTask
  by_cases ht : truthy (objGet td "id")
  · simp only [ht, if_true]
    rcases hp : parseTask (objMerge td
      [("id", (objGet td "id").getD (Val.scal Scal.vnull))]) with e | t
    · simpa [hp] using h
    · simp only [hp]
      by_cases hc : g.nodes.any (fun d' => isTaskWithId d'.ent t.id)
      · simpa [hc] using h
      · simp only [hc, Bool.false_eq_true, if_false]
        by_cases hr : 0 < t.relatedComponentIds.length
        · simp only [hr, if_true]
          refine (inv_relatesToLinks _ _ _ (inv_addNode g _ h) ?_ ?_).1
          · intro tn htn
            have h1 := List.mem_filter.mp htn
            exact ⟨h1.1, isTask_of_isTaskWithId tn.ent t.id h1.2⟩
          · intro cn hcn
            exact (List.mem_filter.mp hcn).1
        · simp only [hr, if_false]
          exact inv_addNode g _ h
  · simp only [ht, Bool.false_eq_true, if_false]
    rcases hp : parseTask (objMerge td
      [("id", Val.scal (.str (freshId g.nextUuid)))]) with e | t
    · simpa [hp] using h
    · simp only [hp]
      by_cases hc : ({ g with nextUuid := g.nextUuid + 1 } : GraphState).nodes.any
          (fun d' => isTaskWithId d'.ent t.id)
      · simpa [hc] using h
      · simp only [hc, Bool.false_eq_true, if_false]
        by_cases hr : 0 < t.relatedComponentIds.length
        · simp only [hr, if_true]
          refine (inv_relatesToLinks _ _ _
            (inv_addNode { g with nextUuid := g.nextUuid + 1 } _ h) ?_ ?_).1
          · intro tn htn
            have h1 := List.mem_filter.mp htn
            exact ⟨h1.1, isTask_of_isTaskWithId tn.ent t.id h1.2⟩
          · intro cn hcn
            exact (List.mem_filter.mp hcn).1
        · simp only [hr, if_false]
          exact inv_addNode { g with nextUuid := g.nextUuid + 1 } _ h

theorem inv_updateTaskStatus (i : String) (st : Val) (pr : Option Val)
    (g : GraphState) (h : GraphInv g) :
    GraphInv (updateTaskStatus i st pr g).2 := by
  unfold updateTaskStatus
  cases hf : g.nodes.find? (fun d => isTaskWithId d.ent i) with
  | none => simpa [hf] using h
  | some d0 =>
    simp only [hf]
    refine inv_nodeMap g _ ?_ ?_ ?_ h
    · intro n
      rcases n with ⟨nid, ent⟩
      cases ent with
      | comp p => rfl
      | task p => by_cases hcc : isTaskWithId (NodeEnt.task p) i <;> simp [hcc]
      | comment p => rfl
      | event ev => rfl
      | snap sn => rfl
    · intro n
      rcases n with ⟨nid, ent⟩
      cases ent with
      | comp p => rfl
      | task p =>
        by_cases hcc : isTaskWithId (NodeEnt.task p) i <;>
          simp [hcc, NodeEnt.isCommentNode]
      | comment p => rfl
      | event ev => rfl
      | snap sn => rfl
    · intro n
      rcases n with ⟨nid, ent⟩
      cases ent with
      | comp p => rfl
      | task p =>
        by_cases hcc : isTaskWithId (NodeEnt.task p) i <;>
          simp [hcc, NodeEnt.isTask]
      | comment p => rfl
      | event ev => rfl
      | snap sn => rfl

theorem inv_createComment (cd : Obj) (g : GraphState) (h : GraphInv g) :
    GraphInv (createComment cd g).2 := by
  unfold createComment
  rcases hk : objGet cd "nodeId" with _ | v
  · simpa [hk] using h
  · rcases v with sc | o2 | a2
    · rcases sc with _ | s | q | b
      · simpa [hk] using h
      · by_cases h0 : (({ g with nextUuid := g.nextUuid + 1, time := g.time + 1 }
            : GraphState).nodes.filter (fun d => nodeIdIs d.ent s)).length = 0
        · simpa [hk, h0] using h
        · simp only [hk, h0, if_false]
          refine (inv_commentLinks _ _ _
            (inv_addNode { g with nextUuid := g.nextUuid + 1, time := g.time + 1 }
              _ h) ?_ ?_).1
          · intro n hn
            exact (List.mem_filter.mp hn).1
          · intro c hcm
            have h1 := List.mem_filter.mp hcm
            exact ⟨h1.1, isCommentNode_of_isCommentWithId c.ent _ h1.2⟩
      · simpa [hk] using h
      · simpa [hk] using h
    · simpa [hk] using h
    · simpa [hk] using h

theorem inv_updateComment (i : String) (u : Obj) (g : GraphState)
    (h : GraphInv g) : GraphInv (updateComment i u g).2 := by
  unfold updateComment
  cases hf : ({ g with time := g.time + 1 } : GraphState).nodes.find?
      (fun d => isCommentWithId d.ent i) with
  | none => simpa [hf] using h
  | some d0 =>
    simp only [hf]
    refine inv_nodeMap { g with time := g.time + 1 } _ ?_ ?_ ?_ h
    · intro n
      rcases n with ⟨nid, ent⟩
      cases ent with
      | comp p => rfl
      | task p => rfl
      | comment p =>
        by_cases hcc : isCommentWithId (NodeEnt.comment p) i <;> simp [hcc]
      | event ev => rfl
      | snap sn => rfl
    · intro n
      rcases n with ⟨nid, ent⟩
      cases ent with
      | comp p => rfl
      | task p => rfl
      | comment p =>
        by_cases hcc : isCommentWithId (NodeEnt.comment p) i <;>
          simp [hcc, NodeEnt.isCommentNode]
      | event ev => rfl
      | snap sn => rfl
    · intro n
      rcases n with ⟨nid, ent⟩
      cases ent with
      | comp p => rfl
      | task p => rfl
      | comment p =>
        by_cases hcc : isCommentWithId (NodeEnt.comment p) i <;>
          simp [hcc, NodeEnt.isTask]
      | event ev => rfl
      | snap sn => rfl

theorem inv_deleteComment (i : String) (g : GraphState) (h : GraphInv g) :
    GraphInv (deleteComment i g).2 :=
  inv_removeNodesWhere g _ h

theorem inv_createComponentsTx (l : List Obj) (acc : List Obj) (g : GraphState)
    (h : GraphInv g) :
    GraphInv (createComponentsTx l acc g).2
    ∧ g.nextNid ≤ (createComponentsTx l acc g).2.nextNid := by
  induction l generalizing acc g with
  | nil => exact ⟨h, Nat.le_refl _⟩
  | cons cd rest ih =>
    simp only [createComponentsTx]
    by_cases ht : truthy (objGet cd "id")
    · simp only [ht, if_true]
      rcases hp : parseComponent (objMerge cd
        [("id", (objGet cd "id").getD (Val.scal Scal.vnull))]) with e | c
      · simp only [hp]
        exact ⟨h, Nat.le_refl _⟩
      · simp only [hp]
        by_cases hc : g.nodes.any (fun d' => isCompWithId d'.ent c.id)
        · simp only [hc, if_true]
          exact ⟨h, Nat.le_refl _⟩
        · simp only [hc, Bool.false_eq_true, if_false]
          have h3 := ih (acc ++ [c.toNodeProps]) (addNode g (.comp c.toNodeProps)).2
            (inv_addNode g _ h)
          exact ⟨h3.1, Nat.le_trans (Nat.le_succ _) h3.2⟩
    · simp only [ht, Bool.false_eq_true, if_false]
      rcases hp : parseComponent (objMerge cd
        [("id", Val.scal (.str (freshId g.nextUuid)))]) with e | c
      · simp only [hp]
        exact ⟨h, Nat.le_refl _⟩
      · simp only [hp]
        by_cases hc : ({ g with nextUuid := g.nextUuid + 1 } : GraphState).nodes.any
            (fun d' => isCompWithId d'.ent c.id)
        · simp only [hc, if_true]
          exact ⟨h, Nat.le_refl _⟩
        · simp only [hc, Bool.false_eq_true, if_false]
          have h3 := ih (acc ++ [c.toNodeProps])
            (addNode { g with nextUuid := g.nextUuid + 1 } (.comp c.toNodeProps)).2
            (inv_addNode { g with nextUuid := g.nextUuid + 1 } _ h)
          exact ⟨h3.1, Nat.le_trans (Nat.le_succ _) h3.2⟩

theorem inv_createComponents (l : List Obj) (m : Obj) (g : GraphState)
    (h : GraphInv g) : GraphInv (createComponents l m g).2 := by
  unfold createComponents
  rcases htx : createComponentsTx l [] g with ⟨r, g'⟩
  have h2 := inv_createComponentsTx l [] g h
  rw [htx] at h2
  cases r with
  | error e => exact inv_rollback g g' h h2.2
  | ok created =>
    refine foldl_preserves GraphInv _ created g' h2.1 ?_
    intro acc b hb hP
    exact inv_recordChange _ _ _ _ _ _ _ hP

theorem inv_createRelationshipsTx (l acc : List Obj) (g : GraphState)
    (h : GraphInv g) :
    GraphInv (createRelationshipsTx l acc g).2
    ∧ g.nextNid ≤ (createRelationshipsTx l acc g).2.nextNid := by
  induction l generalizing acc g with
  | nil => exact ⟨h, Nat.le_refl _⟩
  | cons rd rest ih =>
    simp only [createRelationshipsTx]
    by_cases ht : truthy (objGet rd "id")
    · simp only [ht, if_true]
      rcases hp : parseRelationship (objMerge rd
        [("id", (objGet rd "id").getD (Val.scal Scal.vnull))]) with e | r
      · simp only [hp]
        exact ⟨h, Nat.le_refl _⟩
      · simp only [hp]
        rcases hsn : findComp g r.sourceId with _ | sN <;>
          rcases htn : findComp g r.targetId with _ | tN
        · exact ih acc g h
        · exact ih acc g h
        · exact ih acc g h
        · refine ih _ (addEdge g r.type sN.nid tN.nid r.toRelationProps) ?_
          refine inv_addEdge g r.type sN.nid tN.nid r.toRelationProps h ?_ ?_ ?_ ?_
          · exact h.1.1 sN (findComp_spec g r.sourceId sN hsn).1
          · exact h.1.1 tN (findComp_spec g r.targetId tN htn).1
          · intro hty
            exact absurd hty
              (relType_not_internal r.type (parseRelationship_ok_type _ r hp)).1
          · intro hty
            exact absurd hty
              (relType_not_internal r.type (parseRelationship_ok_type _ r hp)).2
    · simp only [ht, Bool.false_eq_true, if_false]
      rcases hp : parseRelationship (objMerge rd
        [("id", Val.scal (.str (freshId g.nextUuid)))]) with e | r
      · simp only [hp]
        exact ⟨h, Nat.le_refl _⟩
      · simp only [hp]
        rcases hsn : findComp { g with nextUuid := g.nextUuid + 1 } r.sourceId
            with _ | sN <;>
          rcases htn : findComp { g with nextUuid := g.nextUuid + 1 } r.targetId
            with _ | tN
        · exact ih acc _ h
        · exact ih acc _ h
        · exact ih acc _ h
        · refine ih _ (addEdge { g with nextUuid := g.nextUuid + 1 } r.type
            sN.nid tN.nid r.toRelationProps) ?_
          refine inv_addEdge { g with nextUuid := g.nextUuid + 1 } r.type
            sN.nid tN.nid r.toRelationProps h ?_ ?_ ?_ ?_
          · exact h.1.1 sN (findComp_spec _ r.sourceId sN hsn).1
          · exact h.1.1 tN (findComp_spec _ r.targetId tN htn).1
          · intro hty
            exact absurd hty
              (relType_not_internal r.type (parseRelationship_ok_type _ r hp)).1
          · intro hty
            exact absurd hty
              (relType_not_internal r.type (parseRelationship_ok_type _ r hp)).2

theorem inv_createRelationships (l : List Obj) (g : GraphState)
    (h : GraphInv g) : GraphInv (createRelationships l g).2 := by
  unfold createRelationships
  rcases htx : createRelationshipsTx l [] g with ⟨r, g'⟩
  have h2 := inv_createRelationshipsTx l [] g h
  rw [htx] at h2
  cases r with
  | error e => exact inv_rollback g g' h h2.2
  | ok created => exact h2.1

theorem inv_createTasksTx (l acc : List Obj) (g : GraphState) (h : GraphInv g) :
    GraphInv (createTasksTx l acc g).2
    ∧ g.nextNid ≤ (createTasksTx l acc g).2.nextNid := by
  induction l generalizing acc g with
  | nil => exact ⟨h, Nat.le_refl _⟩
  | cons td rest ih =>
    simp only [createTasksTx]
    by_cases ht : truthy (objGet td "id")
    · simp only [ht, if_true]
      rcases hp : parseTask (objMerge td
        [("id", (objGet td "id").getD (Val.scal Scal.vnull))]) with e | t
      · simp only [hp]
        exact ⟨h, Nat.le_refl _⟩
      · simp only [hp]
        by_cases hc : g.nodes.any (fun d' => isTaskWithId d'.ent t.id)
        · simp only [hc, if_true]
          exact ⟨h, Nat.le_refl _⟩
        · simp only [hc, Bool.false_eq_true, if_false]
          by_cases hr : 0 < t.relatedComponentIds.length
          · simp only [hr, if_true]
            have hlinks := inv_relatesToLinks
              ((addNode g (.task t.toNodeProps)).2.nodes.filter
                (fun d => isTaskWithId d.ent t.id))
              ((addNode g (.task t.toNodeProps)).2.nodes.filter
                (fun d => d.ent.isComp
                  && t.relatedComponentIds.any (fun i => nodeIdIs d.ent i)))
              (addNode g (.task t.toNodeProps)).2 (inv_addNode g _ h)
              (fun tn htn => ⟨(List.mem_filter.mp htn).1,
                isTask_of_isTaskWithId tn.ent t.id (List.mem_filter.mp htn).2⟩)
              (fun cn hcn => (List.mem_filter.mp hcn).1)
            have h3 := ih (acc ++ [t.toNodeProps]) _ hlinks.1
            refine ⟨h3.1, ?_⟩
            have h4 := h3.2
            rw [hlinks.2.2] at h4
            exact Nat.le_trans (Nat.le_succ g.nextNid) h4
          · simp only [hr, if_false]
            have h3 := ih (acc ++ [t.toNodeProps]) (addNode g (.task t.toNodeProps)).2
              (inv_addNode g _ h)
            exact ⟨h3.1, Nat.le_trans (Nat.le_succ _) h3.2⟩
    · simp only [ht, Bool.false_eq_true, if_false]
      rcases hp : parseTask (objMerge td
        [("id", Val.scal (.str (freshId g.nextUuid)))]) with e | t
      · simp only [hp]
        exact ⟨h, Nat.le_refl _⟩
      · simp only [hp]
        by_cases hc : ({ g with nextUuid := g.nextUuid + 1 } : GraphState).nodes.any
            (fun d' => isTaskWithId d'.ent t.id)
        · simp only [hc, if_true]
          exact ⟨h, Nat.le_refl _⟩
        · simp only [hc, Bool.false_eq_true, if_false]
          by_cases hr : 0 < t.relatedComponentIds.length
          · simp only [hr, if_true]
            have hlinks := inv_relatesToLinks
              ((addNode { g with nextUuid := g.nextUuid + 1 }
                (.task t.toNodeProps)).2.nodes.filter
                (fun d => isTaskWithId d.ent t.id))
              ((addNode { g with nextUuid := g.nextUuid + 1 }
                (.task t.toNodeProps)).2.nodes.filter
                (fun d => d.ent.isComp
                  && t.relatedComponentIds.any (fun i => nodeIdIs d.ent i)))
              (addNode { g with nextUuid := g.nextUuid + 1 } (.task t.toNodeProps)).2
              (inv_addNode { g with nextUuid := g.nextUuid + 1 } _ h)
              (fun tn htn => ⟨(List.mem_filter.mp htn).1,
                isTask_of_isTaskWithId tn.ent t.id (List.mem_filter.mp htn).2⟩)
              (fun cn hcn => (List.mem_filter.mp hcn).1)
            have h3 := ih (acc ++ [t.toNodeProps]) _ hlinks.1
            refine ⟨h3.1, ?_⟩
            have h4 := h3.2
            rw [hlinks.2.2] at h4
            exact Nat.le_trans (Nat.le_succ g.nextNid) h4
          · simp only [hr, if_false]
            have h3 := ih (acc ++ [t.toNodeProps])
              (addNode { g with nextUuid := g.nextUuid + 1 } (.task t.toNodeProps)).2
              (inv_addNode { g with nextUuid := g.nextUuid + 1 } _ h)
            exact ⟨h3.1, Nat.le_trans (Nat.le_succ _) h3.2⟩

theorem inv_createTasks (l : List Obj) (g : GraphState) (h : GraphInv g) :
    GraphInv (createTasks l g).2 := by
  unfold createTasks
  rcases htx : createTasksTx l [] g with ⟨r, g'⟩
  have h2 := inv_createTasksTx l [] g h
  rw [htx] at h2
  cases r with
  | error e => exact inv_rollback g g' h h2.2
  | ok created => exact h2.1

theorem inv_createSnapshot (n : String) (m : Obj) (g : GraphState)
    (h : GraphInv g) : GraphInv (createSnapshot n m g).2 :=
  inv_addNode { g with nextUuid := g.nextUuid + 1, time := g.time + 1 } _ h

theorem inv_replayChange (c : ReadChange) (g : GraphState) (h : GraphInv g) :
    GraphInv (replayChange c g).2 := by
  rw [replayChange]
  split
  · exact inv_createComponent _ _ _ h
  · split
    · exact inv_updateComponent _ _ _ h
    · split
      · exact inv_deleteComponent _ _ h
      · split
        · exact inv_createTask _ _ h
        · split
          · exact inv_updateTaskStatus _ _ _ _ h
          · split
            · exact inv_createRelationship _ _ h
            · exact h

theorem inv_restorePhase {α : Type}
    (f : Obj → GraphState → Except String α × GraphState)
    (hf : ∀ o gg, GraphInv gg → GraphInv (f o gg).2) (l : List Obj)
    (g : GraphState) (h : GraphInv g) : GraphInv (restorePhase f l g).2 := by
  induction l generalizing g with
  | nil => exact h
  | cons x xs ih =>
    simp only [restorePhase]
    rcases hx : f x g with ⟨r, g'⟩
    have h2 := hf x g h
    rw [hx] at h2
    cases r with
    | error e => exact h2
    | ok a => exact ih g' h2

theorem inv_restoreFromSnapshot (sid : String) (dr : Bool) (g : GraphState)
    (h : GraphInv g) : GraphInv (restoreFromSnapshot sid dr g).2 := by
  unfold restoreFromSnapshot
  split
  · exact h
  · split
    · next sn heq =>
      dsimp only
      split
      · exact h
      · have h1 := inv_removeNodesWhere g (fun n => !(n.isEvent || n.isSnap)) h
        rcases hp1 : restorePhase (fun o => createComponent o []) sn.data.components
            (removeNodesWhere g (fun n => !(n.isEvent || n.isSnap))) with ⟨r1, g1⟩
        have h2 : GraphInv g1 := by
          have h0 := inv_restorePhase (fun o => createComponent o [])
            (fun o gg hg => inv_createComponent o [] gg hg) sn.data.components
            (removeNodesWhere g (fun n => !(n.isEvent || n.isSnap))) h1
          rw [hp1] at h0
          exact h0
        cases r1 with
        | error e => exact h2
        | ok a1 =>
          dsimp only
          rcases hp2 : restorePhase createTask sn.data.tasks g1 with ⟨r2, g2⟩
          have h3 : GraphInv g2 := by
            have h0 := inv_restorePhase createTask
              (fun o gg hg => inv_createTask o gg hg) sn.data.tasks g1 h2
            rw [hp2] at h0
            exact h0
          cases r2 with
          | error e => exact h3
          | ok a2 =>
            dsimp only
            rcases hp3 : restorePhase createRelationship sn.data.relationships g2
                with ⟨r3, g3⟩
            have h4 : GraphInv g3 := by
              have h0 := inv_restorePhase createRelationship
                (fun o gg hg => inv_createRelationship o gg hg)
                sn.data.relationships g2 h3
              rw [hp3] at h0
              exact h0
            cases r3 with
            | error e => exact h4
            | ok a3 => exact h4
    · exact h

theorem inv_replayToTimestamp (t : Nat) (dr : Bool) (g : GraphState)
    (h : GraphInv g) : GraphInv (replayToTimestamp t dr g).2 := by
  unfold replayToTimestamp
  split
  · exact h
  · refine foldl_preserves GraphInv _ _ _
      (inv_removeNodesWhere g (fun n => !n.isEvent) h) ?_
    intro acc b hb hP
    exact inv_replayChange b acc hP

theorem inv_applyOp (op : StoreOp) (g : GraphState) (h : GraphInv g) :
    GraphInv (applyOp op g) := by
  cases op with
  | createComponentOp d m => exact inv_createComponent d m g h
  | createComponentsOp d m => exact inv_createComponents d m g h
  | updateComponentOp i u => exact inv_updateComponent i u g h
  | deleteComponentOp i => exact inv_deleteComponent i g h
  | createRelationshipOp d => exact inv_createRelationship d g h
  | createRelationshipsOp d => exact inv_createRelationships d g h
  | createTaskOp d => exact inv_createTask d g h
  | createTasksOp d => exact inv_createTasks d g h
  | updateTaskStatusOp i s p => exact inv_updateTaskStatus i s p g h
  | createCommentOp d => exact inv_createComment d g h
  | updateCommentOp i u => exact inv_updateComment i u g h
  | deleteCommentOp i => exact inv_deleteComment i g h
  | createSnapshotOp n m => exact inv_createSnapshot n m g h
  | restoreFromSnapshotOp i dr => exact inv_restoreFromSnapshot i dr g h
  | replayToTimestampOp t dr => exact inv_replayToTimestamp t dr g h

theorem inv_reachable (g : GraphState) (h : Reachable g) : GraphInv g := by
  obtain ⟨ops, rfl⟩ := h
  refine foldl_preserves GraphInv _ ops {} inv_empty ?_
  intro acc b hb hP
  exact inv_applyOp b acc hP

theorem row_out_not_internal (g : GraphState) (hinv : GraphInv g) (cid : String)
    (row : Edge × DbNode × String)
    (hrow : row ∈ g.edges.filterMap (fun e =>
      match findNid g e.src, findNid g e.tgt with
      | some s, some t =>
        if isCompWithId s.ent cid && t.ent.isComp then some (e, t, "outgoing")
        else none
      | _, _ => none)) :
    row.1.relType ≠ "HAS_COMMENT" ∧ row.1.relType ≠ "RELATES_TO" := by
  rcases List.mem_filterMap.mp hrow with ⟨e, he, heq⟩
  rcases hs : findNid g e.src with _ | s <;>
    rcases ht : findNid g e.tgt with _ | t <;>
    simp only [hs, ht] at heq
  · exact Option.noConfusion heq
  · exact Option.noConfusion heq
  · exact Option.noConfusion heq
  · by_cases hcond : (isCompWithId s.ent cid && t.ent.isComp) = true
    · rw [if_pos hcond] at heq
      have hrow2 : row = (e, t, "outgoing") := by
        injection heq with h1
        exact h1.symm
      subst hrow2
      simp only [Bool.and_eq_true] at hcond
      obtain ⟨hsc, htc⟩ := hcond
      have hsmem := findNid_spec g e.src s hs
      have htmem := findNid_spec g e.tgt t ht
      constructor
      · intro hty
        have hcm := (hinv.2 e he).1 hty t htmem.1 htmem.2
        have hnotc := not_commentNode_of_isComp t.ent htc
        rw [hcm] at hnotc
        exact Bool.noConfusion hnotc
      · intro hty
        have htk := (hinv.2 e he).2 hty s hsmem.1 hsmem.2
        have hnott := not_task_of_isComp s.ent (isComp_of_isCompWithId s.ent cid hsc)
        rw [htk] at hnott
        exact Bool.noConfusion hnott
    · rw [if_neg hcond] at heq
      exact Option.noConfusion heq

theorem row_in_not_internal (g : GraphState) (hinv : GraphInv g) (cid : String)
    (row : Edge × DbNode × String)
    (hrow : row ∈ g.edges.filterMap (fun e =>
      match findNid g e.src, findNid g e.tgt with
      | some s, some t =>
        if isCompWithId t.ent cid && s.ent.isComp then some (e, s, "incoming")
        else none
      | _, _ => none)) :
    row.1.relType ≠ "HAS_COMMENT" ∧ row.1.relType ≠ "RELATES_TO" := by
  rcases List.mem_filterMap.mp hrow with ⟨e, he, heq⟩
  rcases hs : findNid g e.src with _ | s <;>
    rcases ht : findNid g e.tgt with _ | t <;>
    simp only [hs, ht] at heq
  · exact Option.noConfusion heq
  · exact Option.noConfusion heq
  · exact Option.noConfusion heq
  · by_cases hcond : (isCompWithId t.ent cid && s.ent.isComp) = true
    · rw [if_pos hcond] at heq
      have hrow2 : row = (e, s, "incoming") := by
        injection heq with h1
        exact h1.symm
      subst hrow2
      simp only [Bool.and_eq_true] at hcond
      obtain ⟨htc, hsc⟩ := hcond
      have hsmem := findNid_spec g e.src s hs
      have htmem := findNid_spec g e.tgt t ht
      constructor
      · intro hty
        have hcm := (hinv.2 e he).1 hty t htmem.1 htmem.2
        have hnotc := not_commentNode_of_isComp t.ent
          (isComp_of_isCompWithId t.ent cid htc)
        rw [hcm] at hnotc
        exact Bool.noConfusion hnotc
      · intro hty
        have htk := (hinv.2 e he).2 hty s hsmem.1 hsmem.2
        have hnott := not_task_of_isComp s.ent hsc
        rw [htk] at hnott
        exact Bool.noConfusion hnott
    · rw [if_neg hcond] at heq
      exact Option.noConfusion heq

/-- C8: in every state reachable from the empty database by the public
operations, `getComponentRelationships` never returns a `HAS_COMMENT` or
`RELATES_TO` edge, for every component id and every direction (outgoing,
incoming, or both): each row matched by `getComponentRelationshipsRows`
binds both endpoints with the `:Component` label, while every
`HAS_COMMENT` edge points at a `:Comment` node, every `RELATES_TO` edge
starts at a `:Task` node, and relationship validation admits neither type
for user-created edges. -/
theorem C8_relationship_visibility (g : GraphState) (h : Reachable g)
    (componentId direction : String) (row : Edge × DbNode × String)
    (hrow : row ∈ getComponentRelationshipsRows g componentId direction) :
    row.1.relType ≠ "HAS_COMMENT" ∧ row.1.relType ≠ "RELATES_TO" := by
  have hinv := inv_reachable g h
  simp only [getComponentRelationshipsRows] at hrow
  by_cases h1 : direction = "outgoing"
  · rw [if_pos h1] at hrow
    exact row_out_not_internal g hinv componentId row hrow
  · rw [if_neg h1] at hrow
    by_cases h2 : direction = "incoming"
    · rw [if_pos h2] at hrow
      exact row_in_not_internal g hinv componentId row hrow
    · rw [if_neg h2] at hrow
      rcases List.mem_append.mp (List.mem_dedup.mp hrow) with h3 | h3
      · exact row_out_not_internal g hinv componentId row h3
      · exact row_in_not_internal g hinv componentId row h3

theorem C8_relationship_visibility_witness :
    Reachable exReach
    ∧ exC8Row ∈ getComponentRelationshipsRows exReach exId0 "outgoing"
    ∧ (exC8Row.1.relType ≠ "HAS_COMMENT" ∧ exC8Row.1.relType ≠ "RELATES_TO") :=
  ⟨⟨exOps, rfl⟩, by decide,
    C8_relationship_visibility exReach ⟨exOps, rfl⟩ exId0 "outgoing" exC8Row
      (by decide)⟩

end CG
